import Mathlib

/-!
Verification of the adaptive model lifecycle manager of the csgo-auto
repository against its natural-language specification.

The Python sources are shallowly embedded in Lean 4:
* machine floats become exact rationals; where the source compares the
  square root of a quantity against a constant (numpy standard deviation),
  the embedding compares the squared quantity against the squared constant,
  which is equivalent for nonnegative reals;
* a Python statement that raises an exception at a given input is embedded
  as an Option-valued function returning none at that input;
* mutable objects become explicit state records, and methods become
  functions from state to state.

Each section names the Python file and function it embeds.
-/

/- ============================================================
   Section 1: data_quality_monitor.py, class DataQualityChecker
   (configured in prediction_service_v3_improved.py line 128 with
   outlier_method being iqr and outlier_threshold 1.5)
   ============================================================ -/

/-- Python max of two rationals (kernel-computable form). -/
def rat_max (a b : ℚ) : ℚ := if a ≤ b then b else a

/-- Python min of two rationals (kernel-computable form). -/
def rat_min (a b : ℚ) : ℚ := if a ≤ b then a else b

/-- Python abs on rationals (kernel-computable form). -/
def rat_abs (x : ℚ) : ℚ := if x < 0 then -x else x

theorem rat_max_eq_max (a b : ℚ) : rat_max a b = max a b := by
  rw [rat_max, max_def]

theorem rat_min_eq_min (a b : ℚ) : rat_min a b = min a b := by
  rw [rat_min, min_def]

theorem rat_abs_eq_abs (x : ℚ) : rat_abs x = |x| := by
  rw [rat_abs, abs]
  rcases lt_or_le x 0 with h | h
  · rw [if_pos h]
    exact (max_eq_right (by linarith)).symm
  · rw [if_neg (not_lt.mpr h)]
    exact (max_eq_left (by linarith)).symm

/-- Sum of a list of rationals. -/
def list_sum (l : List ℚ) : ℚ := l.foldr (· + ·) 0

/-- Arithmetic mean, as computed by numpy mean; the empty case is never
reached on the guarded paths of the source. -/
def list_mean (l : List ℚ) : ℚ := list_sum l / (l.length : ℚ)

/-- Population variance, the square of numpy std. The source compares
std against constants; we compare the variance against squared constants. -/
def list_var (l : List ℚ) : ℚ :=
  list_mean (l.map (fun x => (x - list_mean l) ^ 2))

/-- Minimum of a nonempty list (numpy min); 0 as junk value on []. -/
def list_min : List ℚ → ℚ
  | [] => 0
  | a :: rest => rest.foldl min a

/-- Maximum of a nonempty list (numpy max); 0 as junk value on []. -/
def list_max : List ℚ → ℚ
  | [] => 0
  | a :: rest => rest.foldl max a

/-- Insertion into a sorted list, used to model numpy sorting. -/
def insert_sorted (x : ℚ) : List ℚ → List ℚ
  | [] => [x]
  | y :: ys => if x ≤ y then x :: y :: ys else y :: insert_sorted x ys

/-- Sort ascending (numpy percentile sorts its input). -/
def sort_rat (l : List ℚ) : List ℚ := l.foldr insert_sorted []

/-- numpy percentile with the default linear interpolation:
position (n-1)*q/100 between the sorted order statistics. Total
function; the source raises on the empty array, which
detect_outliers_iqr models by returning none. -/
def np_percentile (l : List ℚ) (q : ℚ) : ℚ :=
  let s := sort_rat l
  let n := s.length
  if n = 0 then 0
  else
    let pos : ℚ := (n - 1 : ℚ) * q / 100
    let i : ℕ := pos.floor.toNat
    let frac : ℚ := pos - (i : ℚ)
    let lo := s.getD i 0
    let hi := s.getD (min (i + 1) (n - 1)) 0
    lo + frac * (hi - lo)

/-- Number of points outside the IQR fences
[Q1 - 1.5 IQR, Q3 + 1.5 IQR] (detect_outliers_iqr, with the configured
threshold 1.5). -/
def outlier_count_iqr (prices : List ℚ) : ℕ :=
  let q1 := np_percentile prices 25
  let q3 := np_percentile prices 75
  let iqr := q3 - q1
  let lower := q1 - (3/2 : ℚ) * iqr
  let upper := q3 + (3/2 : ℚ) * iqr
  (prices.filter (fun p => decide (p < lower) || decide (upper < p))).length

/-- Outlier ratio: count divided by series length (0 junk value on the
empty series, where the source raises instead). -/
def outlier_ratio_iqr (prices : List ℚ) : ℚ :=
  (outlier_count_iqr prices : ℚ) / (prices.length : ℚ)

/-- data_quality_monitor.py, DataQualityChecker.detect_outliers_iqr.
Returns (outlier indices count, outlier ratio). On the empty series
the Python code raises (np.percentile of an empty array, then a
division by len(prices) equal to zero), embedded as none. -/
def detect_outliers_iqr (prices : List ℚ) : Option (ℕ × ℚ) :=
  if prices.length = 0 then none
  else some (outlier_count_iqr prices, outlier_ratio_iqr prices)

/-- Period-over-period returns: np.diff(prices) / prices[:-1]. -/
def pct_returns : List ℚ → List ℚ
  | a :: b :: rest => (b - a) / a :: pct_returns (b :: rest)
  | _ => []

/-- Variance of the period returns; the square of the volatility of
check_quality, which is guarded to 0 when there are no returns. -/
def ret_variance (prices : List ℚ) : ℚ :=
  if (pct_returns prices).length = 0 then 0 else list_var (pct_returns prices)

/-- Count of consecutive steps with a relative jump above 10 percent
(the suspicious_days loop of check_quality). -/
def suspicious_days_count : List ℚ → ℕ
  | a :: b :: rest =>
      (if rat_abs (b - a) / a > 1/10 then 1 else 0) + suspicious_days_count (b :: rest)
  | _ => 0

/-- Count of consecutive equal-price transitions (the consecutive_same
loop of check_quality). -/
def consecutive_same_count : List ℚ → ℕ
  | a :: b :: rest =>
      (if a = b then 1 else 0) + consecutive_same_count (b :: rest)
  | _ => 0

/-- Least-squares slope of price against index (np.polyfit degree 1);
for a single point the minimum-norm solution has slope 0, matching the
sxx = 0 guard. -/
def trend_slope (prices : List ℚ) : ℚ :=
  let n := prices.length
  let xs : List ℚ := (List.range n).map (fun i => (i : ℚ))
  let xbar := list_mean xs
  let ybar := list_mean prices
  let sxx := list_sum (xs.map (fun x => (x - xbar) ^ 2))
  let sxy := list_sum ((xs.zip prices).map (fun p => (p.1 - xbar) * (p.2 - ybar)))
  if sxx = 0 then 0 else sxy / sxx

/-- Trend direction from the slope, with the 1e-4 dead zone of
calculate_trend. -/
def trend_direction (prices : List ℚ) : String :=
  let slope := trend_slope prices
  if slope > 1/10000 then "increasing"
  else if slope < -(1/10000) then "decreasing"
  else "stable"

/-- data_quality_monitor.py, dataclass DataQualityReport. Fields that
the source derives by a square root (price_std, price_cv, volatility)
are carried as their squares (ret_variance for volatility); the
penalty tests are translated accordingly. -/
structure DataQualityReport where
  total_points : ℕ
  missing_values : ℕ
  missing_ratio : ℚ
  outlier_count : ℕ
  outlier_ratio : ℚ
  price_mean : ℚ
  price_min : ℚ
  price_max : ℚ
  price_range : ℚ
  ret_variance : ℚ
  trend : String
  suspicious_days : ℕ
  consecutive_same : ℕ
  quality_score : ℚ
  quality_level : String
  deriving Repr, DecidableEq

/-- Missing-value ratio of the five-column frame:
missing / (len(df) * 5). -/
def missing_ratio_of (n mv : ℕ) : ℚ := (mv : ℚ) / ((n : ℚ) * 5)

/-- Missing-value penalty of the scoring block: 20 above ratio 0.05. -/
def penalty_missing (n mv : ℕ) : ℚ :=
  if missing_ratio_of n mv > 1/20 then 20 else 0

/-- Outlier penalty: 15 above ratio 0.1, else 5 above 0.05, else 0. -/
def penalty_outlier (prices : List ℚ) : ℚ :=
  if outlier_ratio_iqr prices > 1/10 then 15
  else if outlier_ratio_iqr prices > 1/20 then 5 else 0

/-- Volatility penalty: 10 when the std of returns exceeds 0.05,
tested on the variance against 1/400. -/
def penalty_volatility (prices : List ℚ) : ℚ :=
  if ret_variance prices > 1/400 then 10 else 0

/-- Consecutive-same-price penalty: 15 above 5 repeats. -/
def penalty_consecutive (prices : List ℚ) : ℚ :=
  if consecutive_same_count prices > 5 then 15 else 0

/-- Price-jump penalty: 10 when suspicious jump steps exceed a tenth
of the points. -/
def penalty_jump (prices : List ℚ) : ℚ :=
  if (suspicious_days_count prices : ℚ) > (prices.length : ℚ) * (1/10) then 10 else 0

/-- The data-point-count penalty: 20 below 10 points, 10 below 20,
else 0. -/
def points_penalty (n : ℕ) : ℚ :=
  if n < 10 then 20 else if n < 20 then 10 else 0

/-- The quality score: 100 minus the six independent penalties,
clamped to [0, 100]. -/
def quality_score_value (prices : List ℚ) (mv : ℕ) : ℚ :=
  rat_max 0 (rat_min 100 (100 - penalty_missing prices.length mv - penalty_outlier prices
    - penalty_volatility prices - penalty_consecutive prices - penalty_jump prices
    - points_penalty prices.length))

/-- Quality level from the score: good from 80, warning from 60,
critical below. -/
def quality_level_of (score : ℚ) : String :=
  if score ≥ 80 then "good" else if score ≥ 60 then "warning" else "critical"

/-- The report assembled by check_quality on a nonempty series. -/
def quality_report (prices : List ℚ) (mv : ℕ) : DataQualityReport :=
  { total_points := prices.length
    missing_values := mv
    missing_ratio := missing_ratio_of prices.length mv
    outlier_count := outlier_count_iqr prices
    outlier_ratio := outlier_ratio_iqr prices
    price_mean := list_mean prices
    price_min := list_min prices
    price_max := list_max prices
    price_range := list_max prices - list_min prices
    ret_variance := ret_variance prices
    trend := trend_direction prices
    suspicious_days := suspicious_days_count prices
    consecutive_same := consecutive_same_count prices
    quality_score := quality_score_value prices mv
    quality_level := quality_level_of (quality_score_value prices mv) }

/-- data_quality_monitor.py, DataQualityChecker.check_quality, under
the v3 configuration (iqr outliers, threshold 1.5). The price series
is the sell_price column; mv is the total null count of the
five-column frame. On the empty frame the Python code raises a
ZeroDivisionError computing missing_ratio (and would raise again
inside detect_outliers_iqr, whose none case covers the same emptiness
condition), embedded as none. -/
def check_quality (prices : List ℚ) (mv : ℕ) : Option DataQualityReport :=
  if prices.length = 0 then none else some (quality_report prices mv)

/-- Helper: the Rat.floor of the core library agrees with the floor of
the FloorRing instance on the rationals. -/
theorem rat_floor_eq (q : ℚ) : q.floor = ⌊q⌋ := rfl

/-- Helper: evaluation of the quality score of the constant 5-point
series: only the data-deficiency penalty fires, leaving 80. -/
theorem const5_quality_score : quality_score_value [100, 100, 100, 100, 100] 0 = 80 := by
  have hoc : outlier_count_iqr [100, 100, 100, 100, 100] = 0 := by
    rw [outlier_count_iqr]
    norm_num [np_percentile, sort_rat, insert_sorted, rat_floor_eq,
      (show Int.toNat 3 = 3 from rfl), (show Int.toNat 1 = 1 from rfl), Nat.min_def]
  have hpm : penalty_missing ([100, 100, 100, 100, 100] : List ℚ).length 0 = 0 := by
    norm_num [penalty_missing, missing_ratio_of]
  have hpo : penalty_outlier [100, 100, 100, 100, 100] = 0 := by
    norm_num [penalty_outlier, outlier_ratio_iqr, hoc]
  have hpv : penalty_volatility [100, 100, 100, 100, 100] = 0 := by
    norm_num [penalty_volatility, ret_variance, pct_returns, list_var, list_mean, list_sum]
  have hpc : penalty_consecutive [100, 100, 100, 100, 100] = 0 := by
    norm_num [penalty_consecutive, consecutive_same_count]
  have hpj : penalty_jump [100, 100, 100, 100, 100] = 0 := by
    norm_num [penalty_jump, suspicious_days_count, rat_abs]
  rw [quality_score_value, hpm, hpo, hpv, hpc, hpj]
  norm_num [points_penalty, rat_max, rat_min]

/-- Helper: check_quality is defined (returns a report) on every
nonempty series. -/
theorem check_quality_isSome (prices : List ℚ) (mv : ℕ)
    (h : prices ≠ []) : (check_quality prices mv).isSome := by
  have hn : ¬ prices.length = 0 := by
    simpa [List.length_eq_zero] using h
  simp [check_quality, hn]

/- ============================================================
   Claim C4 and Claim C8 (data_quality_monitor.py check_quality)
   ============================================================ -/

/-- Claim C4, counterexample: the claim says the quality check never
fails for every series with zero or more points, including the empty
series. On the empty series the Python code raises a
ZeroDivisionError (missing_ratio divides by len(df) * columns, and
detect_outliers_iqr divides by len(prices)); the embedding returns
none, not a report. -/
theorem check_quality_empty_fails : check_quality [] 0 = none := rfl

/-- Claim C4, amended: for every nonempty ordered price series the
quality check returns a QualityReport without failing; only the empty
series makes it raise. -/
theorem check_quality_total_on_nonempty (prices : List ℚ) (mv : ℕ)
    (h : prices ≠ []) : (check_quality prices mv).isSome :=
  check_quality_isSome prices mv h

/-- Witness for check_quality_total_on_nonempty at a concrete series. -/
theorem check_quality_total_on_nonempty_witness :
    (check_quality [(100 : ℚ), 101, 102] 0).isSome :=
  check_quality_total_on_nonempty [(100 : ℚ), 101, 102] 0 (by decide)

/-- Claim C8, counterexample: the claim says every 5-point series gets
quality_level critical. The constant series [100] * 5 triggers only
the 20-point data-deficiency penalty, scoring 80, which the source
labels good, not critical. -/
theorem five_point_series_can_be_good :
    ((check_quality [(100 : ℚ), 100, 100, 100, 100] 0).map
      (fun q => (q.total_points, q.quality_level))) = some (5, "good") ∧
    "good" ≠ "critical" := by
  refine ⟨?_, by decide⟩
  simp [check_quality, quality_report, quality_level_of, const5_quality_score]

/-- Claim C8, amended: every 5-point series yields total_points = 5
and a score of the form clamp(100 - other - 20), where 20 is the
data-point-deficiency penalty (total_points below 10) and other, the
sum of the remaining penalties, is nonnegative; hence the score is at
most 80. The level is critical only when the other penalties drag the
score below 60; a clean constant series scores 80, level good. -/
theorem five_point_series_deficiency_penalty (prices : List ℚ) (mv : ℕ)
    (h5 : prices.length = 5) :
    ∃ q other, check_quality prices mv = some q ∧
      q.total_points = 5 ∧ 0 ≤ other ∧
      q.quality_score = max 0 (min 100 (100 - other - 20)) ∧
      q.quality_score ≤ 80 := by
  have hne : ¬ prices.length = 0 := by omega
  have hpp : points_penalty prices.length = 20 := by
    unfold points_penalty
    rw [h5]
    norm_num
  have hscore : quality_score_value prices mv =
      max 0 (min 100 (100 - (penalty_missing prices.length mv + penalty_outlier prices
        + penalty_volatility prices + penalty_consecutive prices + penalty_jump prices) - 20)) := by
    unfold quality_score_value
    rw [hpp, rat_max_eq_max, rat_min_eq_min]
    ring_nf
  have hother : 0 ≤ penalty_missing prices.length mv + penalty_outlier prices
      + penalty_volatility prices + penalty_consecutive prices + penalty_jump prices := by
    unfold penalty_missing penalty_outlier penalty_volatility penalty_consecutive penalty_jump
    split_ifs <;> norm_num
  refine ⟨quality_report prices mv, _, ?_, ?_, hother, ?_, ?_⟩
  · simp [check_quality, hne]
  · simp [quality_report, h5]
  · simpa [quality_report] using hscore
  · have : (quality_report prices mv).quality_score =
        max 0 (min 100 (100 - (penalty_missing prices.length mv + penalty_outlier prices
          + penalty_volatility prices + penalty_consecutive prices + penalty_jump prices) - 20)) := by
      simpa [quality_report] using hscore
    rw [this]
    have h100 : min 100 (100 - (penalty_missing prices.length mv + penalty_outlier prices
        + penalty_volatility prices + penalty_consecutive prices + penalty_jump prices) - 20) ≤ 80 := by
      have := hother
      calc min 100 (100 - (penalty_missing prices.length mv + penalty_outlier prices
            + penalty_volatility prices + penalty_consecutive prices + penalty_jump prices) - 20)
          ≤ 100 - (penalty_missing prices.length mv + penalty_outlier prices
            + penalty_volatility prices + penalty_consecutive prices + penalty_jump prices) - 20 :=
            min_le_right _ _
        _ ≤ 80 := by linarith
    exact max_le (by norm_num) h100

/-- Witness for five_point_series_deficiency_penalty. -/
theorem five_point_series_deficiency_penalty_witness :
    ∃ q other, check_quality [(100 : ℚ), 100, 100, 100, 100] 0 = some q ∧
      q.total_points = 5 ∧ 0 ≤ other ∧
      q.quality_score = max 0 (min 100 (100 - other - 20)) ∧
      q.quality_score ≤ 80 :=
  five_point_series_deficiency_penalty [(100 : ℚ), 100, 100, 100, 100] 0 (by decide)

/- ============================================================
   Section 2: data_quality_monitor.py, class DataDriftDetector
   (configured in prediction_service_v3_improved.py line 129 with
   recent_ratio 0.3 and drift_threshold 0.5)
   ============================================================ -/

/-- data_quality_monitor.py, dataclass DataDriftReport (good_id and
timestamp fields are environment bookkeeping and omitted). -/
structure DataDriftReport where
  mean_shift : ℚ
  mean_shift_pct : ℚ
  std_shift : ℚ
  std_shift_pct : ℚ
  ks_statistic : ℚ
  ks_pvalue : ℚ
  kl_divergence : ℚ
  wasserstein_distance : ℚ
  range_shift : ℚ
  range_shift_pct : ℚ
  drift_score : ℚ
  drift_level : String
  has_drift : Bool
  drift_reason : Option String
  deriving Repr, DecidableEq

/-- The zero/no-drift report returned by detect_drift when one of the
two windows is shorter than 3 points. -/
def zero_drift_report : DataDriftReport :=
  { mean_shift := 0, mean_shift_pct := 0, std_shift := 0, std_shift_pct := 0
    ks_statistic := 0, ks_pvalue := 1, kl_divergence := 0, wasserstein_distance := 0
    range_shift := 0, range_shift_pct := 0, drift_score := 0, drift_level := "none"
    has_drift := false, drift_reason := none }

/-- The split index int(len(prices) * (1 - recent_ratio)) of
detect_drift. The float product can round across an integer only when
the exact product is an integer (multiples of 10 for ratio 0.3), which
never changes the below-3 window test. -/
def drift_split_idx (n : ℕ) (recent_ratio : ℚ) : ℕ :=
  (⌊(n : ℚ) * (1 - recent_ratio)⌋).toNat

/-- data_quality_monitor.py, DataDriftDetector.detect_drift. The
degenerate branch (a window below 3 points) is embedded in full; the
statistical branch (KS test, KL divergence, Wasserstein distance,
composite score) is taken as a parameter, since no claim depends on
its internals. -/
def detect_drift (statistical : List ℚ → List ℚ → DataDriftReport)
    (recent_ratio : ℚ) (prices : List ℚ) : DataDriftReport :=
  let split := drift_split_idx prices.length recent_ratio
  let old_prices := prices.take split
  let new_prices := prices.drop split
  if new_prices.length < 3 ∨ old_prices.length < 3 then zero_drift_report
  else statistical old_prices new_prices

/- ============================================================
   Claim C9 (data_quality_monitor.py detect_drift, degenerate split)
   ============================================================ -/

/-- Claim C9: whenever the split of the series leaves either window
with fewer than 3 points, drift detection does not fail but returns
the zero/no-drift report: every shift and divergence field is 0,
drift_score is 0, the level is none and has_drift is false, for every
choice of the statistical branch. -/
theorem detect_drift_degenerate_zero_report
    (statistical : List ℚ → List ℚ → DataDriftReport)
    (recent_ratio : ℚ) (prices : List ℚ)
    (h : (prices.drop (drift_split_idx prices.length recent_ratio)).length < 3 ∨
         (prices.take (drift_split_idx prices.length recent_ratio)).length < 3) :
    detect_drift statistical recent_ratio prices = zero_drift_report ∧
    (detect_drift statistical recent_ratio prices).mean_shift = 0 ∧
    (detect_drift statistical recent_ratio prices).mean_shift_pct = 0 ∧
    (detect_drift statistical recent_ratio prices).std_shift = 0 ∧
    (detect_drift statistical recent_ratio prices).std_shift_pct = 0 ∧
    (detect_drift statistical recent_ratio prices).ks_statistic = 0 ∧
    (detect_drift statistical recent_ratio prices).kl_divergence = 0 ∧
    (detect_drift statistical recent_ratio prices).wasserstein_distance = 0 ∧
    (detect_drift statistical recent_ratio prices).range_shift = 0 ∧
    (detect_drift statistical recent_ratio prices).range_shift_pct = 0 ∧
    (detect_drift statistical recent_ratio prices).drift_score = 0 ∧
    (detect_drift statistical recent_ratio prices).drift_level = "none" ∧
    (detect_drift statistical recent_ratio prices).has_drift = false := by
  have hz : detect_drift statistical recent_ratio prices = zero_drift_report := by
    rw [detect_drift]
    exact if_pos h
  refine ⟨hz, ?_⟩
  rw [hz]
  refine ⟨rfl, rfl, rfl, rfl, rfl, rfl, rfl, rfl, rfl, rfl, rfl, rfl⟩

/-- Witness for detect_drift_degenerate_zero_report: a 4-point series
under the configured recent_ratio 0.3 splits 2 and 2, both windows
below 3 points. -/
theorem detect_drift_degenerate_zero_report_witness :
    detect_drift (fun _ _ => zero_drift_report) (3/10) [1, 2, 3, 4] = zero_drift_report ∧
    (detect_drift (fun _ _ => zero_drift_report) (3/10) [1, 2, 3, 4]).drift_level = "none" := by
  have h : (([1, 2, 3, 4] : List ℚ).drop (drift_split_idx ([1, 2, 3, 4] : List ℚ).length (3/10))).length < 3 ∨
      (([1, 2, 3, 4] : List ℚ).take (drift_split_idx ([1, 2, 3, 4] : List ℚ).length (3/10))).length < 3 := by
    have hidx : drift_split_idx 4 (3/10) = 2 := by
      rw [drift_split_idx]
      norm_num
      rfl
    simp [hidx]
  have := detect_drift_degenerate_zero_report (fun _ _ => zero_drift_report) (3/10) [1, 2, 3, 4] h
  exact ⟨this.1, this.2.2.2.2.2.2.2.2.2.2.2.1⟩

/- ============================================================
   Section 3: prediction_service_v3_improved.py,
   PredictionModel._decide_training_strategy (lines 644-677)
   ============================================================ -/

/-- The three training strategies. -/
inductive TrainingStrategy
  | skip
  | incremental
  | full
  deriving Repr, DecidableEq

/-- The model age in days used by the decision procedure: 999 when the
model has no last_timestamp, else the elapsed seconds divided by
86400. -/
def model_age_days (last_timestamp : Option ℚ) (now : ℚ) : ℚ :=
  match last_timestamp with
  | none => 999
  | some t => (now - t) / 86400

/-- prediction_service_v3_improved.py,
PredictionModel._decide_training_strategy, as a pure function of the
presence of the three submodels, the model age in days, and the drift
level and KS statistic of the drift report. -/
def decide_training_strategy (has_lr has_prophet has_xgb : Bool)
    (age_days : ℚ) (drift_level : String) (ks_statistic : ℚ) : TrainingStrategy :=
  if has_xgb = false ∨ has_lr = false ∨ has_prophet = false then .full
  else if age_days > 7 then .full
  else if drift_level = "severe" ∨ ks_statistic > 1/2 then .full
  else if drift_level = "moderate" ∨ (3/10 < ks_statistic ∧ ks_statistic ≤ 1/2) then .incremental
  else if age_days > 3 then .incremental
  else .skip

/-- The priority-ordered decision table exactly as the specification
words it: (1) no existing submodels: full; (2) age above 7 days: full;
(3) severe drift or KS above 0.5: full; (4) moderate drift or KS in
(0.3, 0.5]: incremental; (5) age above 3 days: incremental;
(6) otherwise skip. First matching rule wins. -/
def spec_decision_table (has_lr has_prophet has_xgb : Bool)
    (age_days : ℚ) (drift_level : String) (ks_statistic : ℚ) : TrainingStrategy :=
  if ¬ (has_lr ∧ has_prophet ∧ has_xgb) then .full
  else if age_days > 7 then .full
  else if drift_level = "severe" ∨ ks_statistic > 1/2 then .full
  else if drift_level = "moderate" ∨ (3/10 < ks_statistic ∧ ks_statistic ≤ 1/2) then .incremental
  else if age_days > 3 then .incremental
  else .skip

/- ============================================================
   Claim C3 (the training-strategy decision table)
   ============================================================ -/

/-- Claim C3: the decision procedure of the source coincides with the
priority-ordered table of the specification on every input, and in
particular a 10-day-old model with drift level none is fully
retrained for every KS statistic (freshness precedes drift). -/
theorem decide_training_strategy_matches_table :
    (∀ (has_lr has_prophet has_xgb : Bool) (age_days : ℚ) (dl : String) (ks : ℚ),
      decide_training_strategy has_lr has_prophet has_xgb age_days dl ks =
        spec_decision_table has_lr has_prophet has_xgb age_days dl ks) ∧
    (∀ ks : ℚ, decide_training_strategy true true true 10 "none" ks = .full) := by
  constructor
  · intro a b c age dl ks
    rw [decide_training_strategy, spec_decision_table]
    cases a <;> cases b <;> cases c <;> simp
  · intro ks
    rw [decide_training_strategy]
    norm_num

/- ============================================================
   Section 4: prediction_service_v3_improved.py,
   PredictionModel._update_weights (lines 512-533)
   ============================================================ -/

/-- The expression metrics.get(key) or 1.0: a missing or falsy (0.0)
MAPE becomes the deliberately poor default 1.0. -/
def mape_or_default (m : Option ℚ) : ℚ :=
  match m with
  | none => 1
  | some v => if v = 0 then 1 else v

/-- The sum of the inverse errors 1 / (mape + 0.001) over the three
submodels. -/
def inv_mape_sum (lr_mape prophet_mape xgb_mape : Option ℚ) : ℚ :=
  1 / (mape_or_default lr_mape + 1/1000) + 1 / (mape_or_default prophet_mape + 1/1000)
    + 1 / (mape_or_default xgb_mape + 1/1000)

/-- The fixed prior weighting used as fallback (also the constructor
default): lr 0.2, prophet 0.3, xgb 0.5. -/
def prior_weights : ℚ × ℚ × ℚ := (1/5, 3/10, 1/2)

/-- prediction_service_v3_improved.py, PredictionModel._update_weights
as a pure function from the three MAPE metrics to the (lr, prophet,
xgb) weights. A mape of exactly -0.001 makes Python raise a
ZeroDivisionError, caught by the surrounding except which installs the
prior weights; that path is the first branch. Otherwise the weights
are the normalized inverse errors when their sum is positive, and the
prior otherwise. -/
def update_weights (lr_mape prophet_mape xgb_mape : Option ℚ) : ℚ × ℚ × ℚ :=
  let m_lr := mape_or_default lr_mape
  let m_p := mape_or_default prophet_mape
  let m_x := mape_or_default xgb_mape
  if m_lr + 1/1000 = 0 ∨ m_p + 1/1000 = 0 ∨ m_x + 1/1000 = 0 then prior_weights
  else
    let total := inv_mape_sum lr_mape prophet_mape xgb_mape
    if total > 0 then
      (1 / (m_lr + 1/1000) / total, 1 / (m_p + 1/1000) / total, 1 / (m_x + 1/1000) / total)
    else prior_weights

/- ============================================================
   Claim C5 (ensemble weight normalization)
   ============================================================ -/

/-- Claim C5: for positive effective MAPE values (a missing MAPE is
treated as 1.0) the weights are the inverse errors 1/(mape + 0.001)
normalized by their sum, they sum to exactly 1 (so within the 1e-6
floating tolerance); when the sum of inverse errors is non-positive
the result is the fixed prior (0.2, 0.3, 0.5), which also sums to 1. -/
theorem update_weights_normalized :
    (∀ lr_mape prophet_mape xgb_mape : Option ℚ,
      0 < mape_or_default lr_mape → 0 < mape_or_default prophet_mape →
      0 < mape_or_default xgb_mape →
      update_weights lr_mape prophet_mape xgb_mape =
        (1 / (mape_or_default lr_mape + 1/1000) / inv_mape_sum lr_mape prophet_mape xgb_mape,
         1 / (mape_or_default prophet_mape + 1/1000) / inv_mape_sum lr_mape prophet_mape xgb_mape,
         1 / (mape_or_default xgb_mape + 1/1000) / inv_mape_sum lr_mape prophet_mape xgb_mape) ∧
      (update_weights lr_mape prophet_mape xgb_mape).1
        + (update_weights lr_mape prophet_mape xgb_mape).2.1
        + (update_weights lr_mape prophet_mape xgb_mape).2.2 = 1 ∧
      |(update_weights lr_mape prophet_mape xgb_mape).1
        + (update_weights lr_mape prophet_mape xgb_mape).2.1
        + (update_weights lr_mape prophet_mape xgb_mape).2.2 - 1| ≤ 1/1000000) ∧
    (∀ lr_mape prophet_mape xgb_mape : Option ℚ,
      inv_mape_sum lr_mape prophet_mape xgb_mape ≤ 0 →
      update_weights lr_mape prophet_mape xgb_mape = prior_weights) ∧
    prior_weights.1 + prior_weights.2.1 + prior_weights.2.2 = 1 := by
  refine ⟨?_, ?_, by norm_num [prior_weights]⟩
  · intro a b c ha hb hc
    have da : mape_or_default a + 1/1000 > 0 := by linarith
    have db : mape_or_default b + 1/1000 > 0 := by linarith
    have dc : mape_or_default c + 1/1000 > 0 := by linarith
    have htot : inv_mape_sum a b c > 0 := by
      rw [inv_mape_sum]
      positivity
    have heq : update_weights a b c =
        (1 / (mape_or_default a + 1/1000) / inv_mape_sum a b c,
         1 / (mape_or_default b + 1/1000) / inv_mape_sum a b c,
         1 / (mape_or_default c + 1/1000) / inv_mape_sum a b c) := by
      rw [update_weights]
      rw [if_neg (by push_neg; exact ⟨ne_of_gt da, ne_of_gt db, ne_of_gt dc⟩)]
      rw [if_pos htot]
    refine ⟨heq, ?_, ?_⟩
    · rw [heq]
      have hs : inv_mape_sum a b c =
          1 / (mape_or_default a + 1/1000) + 1 / (mape_or_default b + 1/1000)
            + 1 / (mape_or_default c + 1/1000) := rfl
      field_simp
      rw [hs]
      field_simp
      ring
    · rw [heq]
      have hs : inv_mape_sum a b c =
          1 / (mape_or_default a + 1/1000) + 1 / (mape_or_default b + 1/1000)
            + 1 / (mape_or_default c + 1/1000) := rfl
      have hone : 1 / (mape_or_default a + 1/1000) / inv_mape_sum a b c
          + 1 / (mape_or_default b + 1/1000) / inv_mape_sum a b c
          + 1 / (mape_or_default c + 1/1000) / inv_mape_sum a b c = 1 := by
        field_simp
        rw [hs]
        field_simp
        ring
      rw [hone]
      norm_num
  · intro a b c h
    rw [update_weights]
    by_cases hz : mape_or_default a + 1/1000 = 0 ∨ mape_or_default b + 1/1000 = 0 ∨
        mape_or_default c + 1/1000 = 0
    · rw [if_pos hz]
    · rw [if_neg hz, if_neg (not_lt.mpr h)]

/-- Witness for update_weights_normalized: the normalization branch at
MAPEs (0.1, missing, 0.2) and the fallback branch at all MAPEs -1. -/
theorem update_weights_normalized_witness :
    ((update_weights (some (1/10)) none (some (1/5))).1
      + (update_weights (some (1/10)) none (some (1/5))).2.1
      + (update_weights (some (1/10)) none (some (1/5))).2.2 = 1) ∧
    update_weights (some (-1)) (some (-1)) (some (-1)) = prior_weights := by
  constructor
  · exact (update_weights_normalized.1 (some (1/10)) none (some (1/5))
      (by norm_num [mape_or_default]) (by norm_num [mape_or_default])
      (by norm_num [mape_or_default])).2.1
  · exact update_weights_normalized.2.1 (some (-1)) (some (-1)) (some (-1))
      (by norm_num [inv_mape_sum, mape_or_default])

/- ============================================================
   Section 5: prediction_service_v3_improved.py,
   class ModelCacheManager (lines 174-214)
   ============================================================ -/

/-- One cache slot: the good_id key, an opaque model value, and the
last access time. Python keeps two dicts (cache and access_time) over
the same keys; one association list in insertion order models both,
since dict iteration order is insertion order and updating an
existing key keeps its position. -/
structure CacheEntry where
  key : ℕ
  model : ℕ
  atime : ℕ
  deriving Repr, DecidableEq

/-- The manager state: the entries plus a logical clock standing for
time.time(), strictly increasing across operations. -/
structure CacheState where
  entries : List CacheEntry
  clock : ℕ
  deriving Repr, DecidableEq

/-- The empty cache. -/
def cache_empty : CacheState := { entries := [], clock := 0 }

/-- The keys currently cached, in dict iteration order. -/
def cache_keys (s : CacheState) : List ℕ := s.entries.map (fun e => e.key)

/-- ModelCacheManager.size: len(self.cache). -/
def cache_size (s : CacheState) : ℕ := s.entries.length

/-- min(self.access_time, key=self.access_time.get): the entry with
the least access time, the earlier one on ties (Python min keeps the
first minimal element in iteration order). -/
def min_atime_entry : List CacheEntry → Option CacheEntry
  | [] => none
  | e :: es =>
    match min_atime_entry es with
    | none => some e
    | some m => if e.atime ≤ m.atime then some e else some m

/-- Write key/model at time t: update in place when the key exists
(dict assignment keeps the position), else append. -/
def write_entry (es : List CacheEntry) (k m t : ℕ) : List CacheEntry :=
  if es.any (fun e => e.key == k) then
    es.map (fun e => if e.key == k then { key := k, model := m, atime := t } else e)
  else es ++ [{ key := k, model := m, atime := t }]

/-- del self.cache[oldest_id]; del self.access_time[oldest_id]. -/
def remove_key (es : List CacheEntry) (k : ℕ) : List CacheEntry :=
  es.filter (fun e => !(e.key == k))

/-- ModelCacheManager.put. When the cache is at or above max_size and
the key is new, the least-recently-accessed entry is evicted first;
on an empty access_time dict Python min raises a ValueError, embedded
as none (unreachable for max_size at least 1). -/
def cache_put (max_size : ℕ) (s : CacheState) (k m : ℕ) : Option CacheState :=
  if max_size ≤ s.entries.length ∧ ¬ s.entries.any (fun e => e.key == k) then
    match min_atime_entry s.entries with
    | none => none
    | some oldest =>
      some { entries := write_entry (remove_key s.entries oldest.key) k m s.clock
             clock := s.clock + 1 }
  else
    some { entries := write_entry s.entries k m s.clock, clock := s.clock + 1 }

/-- ModelCacheManager.get: on a hit, refresh the access time and
return the model; on a miss return none and leave the state alone. -/
def cache_get (s : CacheState) (k : ℕ) : Option ℕ × CacheState :=
  match s.entries.find? (fun e => e.key == k) with
  | some e =>
    (some e.model,
     { entries := s.entries.map (fun e2 =>
         if e2.key == k then { key := e2.key, model := e2.model, atime := s.clock } else e2)
       clock := s.clock + 1 })
  | none => (none, s)

/-- A put or get call against the cache. -/
inductive CacheOp
  | put (k m : ℕ)
  | get (k : ℕ)
  deriving Repr, DecidableEq

/-- Run one operation (none models the ValueError of put on an empty
dict with max_size 0). -/
def cache_run_op (max_size : ℕ) (s : CacheState) : CacheOp → Option CacheState
  | .put k m => cache_put max_size s k m
  | .get k => some (cache_get s k).2

/-- Run a sequence of operations from a state. -/
def cache_run (max_size : ℕ) (s : CacheState) : List CacheOp → Option CacheState
  | [] => some s
  | op :: ops =>
    match cache_run_op max_size s op with
    | none => none
    | some s2 => cache_run max_size s2 ops

/-- Helper: min_atime_entry is none exactly on the empty list. -/
theorem min_atime_entry_none : ∀ {es : List CacheEntry},
    min_atime_entry es = none → es = [] := by
  intro es h
  cases es with
  | nil => rfl
  | cons e rest =>
    rw [min_atime_entry] at h
    cases hr : min_atime_entry rest <;> rw [hr] at h <;> dsimp only at h
    · simp at h
    · split at h <;> simp at h

/-- Helper: a returned minimal entry is one of the entries. -/
theorem min_atime_entry_mem : ∀ {es : List CacheEntry} {m : CacheEntry},
    min_atime_entry es = some m → m ∈ es := by
  intro es
  induction es with
  | nil => intro m h; simp [min_atime_entry] at h
  | cons e rest ih =>
    intro m h
    rw [min_atime_entry] at h
    cases hr : min_atime_entry rest <;> rw [hr] at h <;> dsimp only at h
    · simp at h
      simp [h]
    · split at h <;> simp at h
      · simp [h]
      · right
        exact h ▸ ih hr

/-- Helper: the returned minimal entry has the least access time. -/
theorem min_atime_entry_min : ∀ {es : List CacheEntry} {m : CacheEntry},
    min_atime_entry es = some m → ∀ e ∈ es, m.atime ≤ e.atime := by
  intro es
  induction es with
  | nil => intro m h; simp [min_atime_entry] at h
  | cons e rest ih =>
    intro m h e2 he2
    rw [min_atime_entry] at h
    cases hr : min_atime_entry rest <;> rw [hr] at h <;> dsimp only at h
    · have hrest : rest = [] := min_atime_entry_none hr
      subst hrest
      simp at h he2
      subst h
      subst he2
      exact le_refl _
    · rename_i m2
      rcases List.mem_cons.mp he2 with h1 | h2
      · subst h1
        split at h <;> simp at h <;> subst h
        · exact le_refl _
        · rename_i hlt
          exact le_of_lt (lt_of_not_le hlt)
      · split at h <;> simp at h <;> subst h
        · rename_i hle
          exact le_trans hle (ih hr e2 h2)
        · exact ih hr e2 h2

/-- Helper: writing an existing key keeps the entry count. -/
theorem write_entry_length_mem (es : List CacheEntry) (k m t : ℕ)
    (h : es.any (fun e => e.key == k) = true) :
    (write_entry es k m t).length = es.length := by
  rw [write_entry, if_pos h, List.length_map]

/-- Helper: writing a new key appends one entry. -/
theorem write_entry_length_new (es : List CacheEntry) (k m t : ℕ)
    (h : ¬ es.any (fun e => e.key == k) = true) :
    (write_entry es k m t).length = es.length + 1 := by
  rw [write_entry, if_neg h, List.length_append, List.length_singleton]

/-- Helper: removing the key of a present entry strictly shrinks the
list. -/
theorem remove_key_length_lt (es : List CacheEntry) (m : CacheEntry)
    (hm : m ∈ es) : (remove_key es m.key).length < es.length := by
  induction es with
  | nil => simp at hm
  | cons e rest ih =>
    rw [remove_key, List.filter]
    rcases List.mem_cons.mp hm with h1 | h2
    · subst h1
      simp only [beq_self_eq_true, Bool.not_true]
      have : (remove_key rest m.key).length ≤ rest.length := List.length_filter_le _ _
      rw [remove_key] at this
      simpa using Nat.lt_succ_of_le this
    · by_cases hk : e.key == m.key
      · simp only [hk, Bool.not_true]
        have : (remove_key rest m.key).length ≤ rest.length := List.length_filter_le _ _
        rw [remove_key] at this
        simpa using Nat.lt_succ_of_le this
      · simp only [Bool.not_eq_true] at hk
        simp only [hk, Bool.not_false]
        have := ih h2
        rw [remove_key] at this
        simpa using Nat.succ_lt_succ this

/-- Helper: removing never grows the list. -/
theorem remove_key_length_le (es : List CacheEntry) (k : ℕ) :
    (remove_key es k).length ≤ es.length := List.length_filter_le _ _

/-- Helper: a key absent from es is also absent after removing a key. -/
theorem not_any_remove_key (es : List CacheEntry) (k k2 : ℕ)
    (h : ¬ es.any (fun e => e.key == k) = true) :
    ¬ (remove_key es k2).any (fun e => e.key == k) = true := by
  intro hc
  apply h
  rw [List.any_eq_true] at hc ⊢
  obtain ⟨e, he, hk⟩ := hc
  exact ⟨e, List.mem_of_mem_filter he, hk⟩

/-- Helper: get never changes the number of entries. -/
theorem cache_get_size (s : CacheState) (k : ℕ) :
    cache_size (cache_get s k).2 = cache_size s := by
  rw [cache_get]
  cases hf : s.entries.find? (fun e => e.key == k) <;> simp [cache_size]

/-- Helper: put succeeds and preserves the size bound whenever
max_size is at least 1. -/
theorem cache_put_size (max_size : ℕ) (hmax : 1 ≤ max_size) (s : CacheState)
    (k m : ℕ) (hs : cache_size s ≤ max_size) :
    ∃ s2, cache_put max_size s k m = some s2 ∧ cache_size s2 ≤ max_size := by
  rw [cache_put]
  by_cases hc : max_size ≤ s.entries.length ∧ ¬ s.entries.any (fun e => e.key == k) = true
  · rw [if_pos hc]
    cases hmin : min_atime_entry s.entries with
    | none =>
      have : s.entries = [] := min_atime_entry_none hmin
      rw [this] at hc
      simp at hc
      omega
    | some oldest =>
      dsimp only
      refine ⟨_, rfl, ?_⟩
      have hmem : oldest ∈ s.entries := min_atime_entry_mem hmin
      have hlt : (remove_key s.entries oldest.key).length < s.entries.length :=
        remove_key_length_lt s.entries oldest hmem
      have hnew : ¬ (remove_key s.entries oldest.key).any (fun e => e.key == k) = true :=
        not_any_remove_key s.entries k oldest.key hc.2
      have hlen := write_entry_length_new (remove_key s.entries oldest.key) k m s.clock hnew
      rw [cache_size] at hs ⊢
      dsimp only
      omega
  · rw [if_neg hc]
    refine ⟨_, rfl, ?_⟩
    rw [cache_size] at hs ⊢
    dsimp only
    by_cases hk : s.entries.any (fun e => e.key == k) = true
    · rw [write_entry_length_mem s.entries k m s.clock hk]
      exact hs
    · rw [write_entry_length_new s.entries k m s.clock hk]
      have hlt : ¬ max_size ≤ s.entries.length := fun hle => (not_and.mp hc hle) hk
      omega

/-- Helper: running any operation sequence from a state within the
bound keeps the size within the bound and never raises. -/
theorem cache_run_size_le (max_size : ℕ) (hmax : 1 ≤ max_size) :
    ∀ (ops : List CacheOp) (s : CacheState), cache_size s ≤ max_size →
    ∃ s2, cache_run max_size s ops = some s2 ∧ cache_size s2 ≤ max_size := by
  intro ops
  induction ops with
  | nil => intro s hs; exact ⟨s, rfl, hs⟩
  | cons op rest ih =>
    intro s hs
    have hstep : ∃ s1, cache_run_op max_size s op = some s1 ∧ cache_size s1 ≤ max_size := by
      cases op with
      | get k =>
        refine ⟨(cache_get s k).2, rfl, ?_⟩
        rw [cache_get_size]
        exact hs
      | put k m => exact cache_put_size max_size hmax s k m hs
    obtain ⟨s1, hop, hs1⟩ := hstep
    obtain ⟨s2, hrun, hs2⟩ := ih s1 hs1
    refine ⟨s2, ?_, hs2⟩
    rw [cache_run, hop]
    exact hrun

/-- Helper: a get hit rewrites exactly the found key's entry to the
current clock, as seen by a subsequent lookup. -/
theorem cache_find_refresh : ∀ (es : List CacheEntry) (k t : ℕ) (e : CacheEntry),
    es.find? (fun e2 => e2.key == k) = some e →
    (es.map (fun e2 => if e2.key == k then { key := e2.key, model := e2.model, atime := t }
      else e2)).find? (fun e2 => e2.key == k) =
      some { key := e.key, model := e.model, atime := t } := by
  intro es
  induction es with
  | nil => intro k t e h; simp at h
  | cons a rest ih =>
    intro k t e h
    by_cases ha : (a.key == k) = true
    · rw [List.find?_cons_of_pos (p := fun e2 : CacheEntry => e2.key == k) rest ha] at h
      simp only [Option.some.injEq] at h
      subst h
      rw [List.map_cons, if_pos ha]
      exact List.find?_cons_of_pos (p := fun e2 : CacheEntry => e2.key == k) _ (by simpa using ha)
    · rw [List.find?_cons_of_neg (p := fun e2 : CacheEntry => e2.key == k) rest ha] at h
      rw [List.map_cons, if_neg (by simpa using ha)]
      rw [List.find?_cons_of_neg (p := fun e2 : CacheEntry => e2.key == k) _ (by simpa using ha)]
      exact ih k t e h

/-- Helper: the keys of a filtered entry list are the filtered keys. -/
theorem cache_keys_remove : ∀ (es : List CacheEntry) (k0 : ℕ),
    (remove_key es k0).map (fun e => e.key) =
      (es.map (fun e => e.key)).filter (fun k2 => !(k2 == k0)) := by
  intro es
  induction es with
  | nil => intro k0; rfl
  | cons a rest ih =>
    intro k0
    rw [remove_key, List.filter]
    by_cases ha : (a.key == k0) = true
    · simp only [ha, Bool.not_true]
      rw [List.map_cons, List.filter]
      simp only [ha, Bool.not_true]
      have := ih k0
      rw [remove_key] at this
      exact this
    · rw [Bool.not_eq_true] at ha
      simp only [ha, Bool.not_false]
      rw [List.map_cons, List.map_cons, List.filter]
      simp only [ha, Bool.not_false]
      have := ih k0
      rw [remove_key] at this
      rw [this]

/- ============================================================
   Claim C6 (ModelCacheManager LRU behavior)
   ============================================================ -/

/-- Claim C6: starting from the empty cache, (1) for every operation
sequence under a positive max_size no put ever raises and the size
never exceeds max_size; (2) a get hit refreshes the accessed entry's
access time to the current clock; (3) a put of a new key at capacity
evicts exactly the least-recently-accessed entry, leaving the other
keys plus the new one; (4) with max_size 2 the sequence put(1),
put(2), get(1), put(3) evicts key 2 and leaves exactly the keys
[1, 3]. -/
theorem model_cache_lru_spec :
    (∀ max_size : ℕ, 1 ≤ max_size → ∀ ops : List CacheOp,
      ∃ s2, cache_run max_size cache_empty ops = some s2 ∧ cache_size s2 ≤ max_size) ∧
    (∀ (s : CacheState) (k : ℕ) (e : CacheEntry),
      s.entries.find? (fun e2 => e2.key == k) = some e →
      (cache_get s k).2.entries.find? (fun e2 => e2.key == k) =
        some { key := e.key, model := e.model, atime := s.clock }) ∧
    (∀ (max_size : ℕ) (s : CacheState) (k m : ℕ) (oldest : CacheEntry),
      cache_size s = max_size → ¬ s.entries.any (fun e => e.key == k) = true →
      min_atime_entry s.entries = some oldest →
      (∀ e ∈ s.entries, oldest.atime ≤ e.atime) ∧
      ∃ s2, cache_put max_size s k m = some s2 ∧
        cache_keys s2 = (cache_keys s).filter (fun k2 => !(k2 == oldest.key)) ++ [k]) ∧
    (cache_run 2 cache_empty
      [CacheOp.put 1 10, CacheOp.put 2 20, CacheOp.get 1, CacheOp.put 3 30]).map cache_keys =
      some [1, 3] := by
  refine ⟨?_, ?_, ?_, by decide⟩
  · intro max_size hmax ops
    exact cache_run_size_le max_size hmax ops cache_empty (by simp [cache_size, cache_empty])
  · intro s k e h
    rw [cache_get, h]
    dsimp only
    exact cache_find_refresh s.entries k s.clock e h
  · intro max_size s k m oldest hsz hnew hmin
    refine ⟨min_atime_entry_min hmin, ?_⟩
    rw [cache_put, if_pos ⟨le_of_eq hsz.symm, hnew⟩, hmin]
    dsimp only
    refine ⟨_, rfl, ?_⟩
    rw [cache_keys]
    dsimp only
    rw [write_entry,
      if_neg (not_any_remove_key s.entries k oldest.key hnew),
      List.map_append]
    rw [cache_keys_remove s.entries oldest.key]
    rfl

/-- Witness for model_cache_lru_spec: the size bound at max_size 1
over a two-put sequence, the refresh clause at a one-entry state, and
the eviction clause at a full one-entry cache. -/
theorem model_cache_lru_spec_witness :
    (∃ s2, cache_run 1 cache_empty [CacheOp.put 7 1, CacheOp.put 8 2] = some s2 ∧
      cache_size s2 ≤ 1) ∧
    (cache_get { entries := [{ key := 5, model := 9, atime := 0 }], clock := 4 } 5).2.entries.find?
      (fun e2 => e2.key == 5) = some { key := 5, model := 9, atime := 4 } ∧
    (∃ s2, cache_put 1 { entries := [{ key := 5, model := 9, atime := 0 }], clock := 4 } 6 3 =
      some s2 ∧ cache_keys s2 =
        (cache_keys { entries := [{ key := 5, model := 9, atime := 0 }], clock := 4 }).filter
          (fun k2 => !(k2 == 5)) ++ [6]) := by
  refine ⟨?_, ?_, ?_⟩
  · exact model_cache_lru_spec.1 1 (by decide) [CacheOp.put 7 1, CacheOp.put 8 2]
  · exact model_cache_lru_spec.2.1 { entries := [{ key := 5, model := 9, atime := 0 }], clock := 4 }
      5 { key := 5, model := 9, atime := 0 } (by decide)
  · have h := (model_cache_lru_spec.2.2.1 1
      { entries := [{ key := 5, model := 9, atime := 0 }], clock := 4 } 6 3
      { key := 5, model := 9, atime := 0 } (by decide) (by decide) (by decide)).2
    exact h

/- ============================================================
   Section 6: prediction_service_v3_improved.py,
   PredictionModel._calculate_metrics (lines 496-510) and
   drift_alert_system.py, DriftAlertSystem rules (lines 74-230)
   ============================================================ -/

/-- The float64 machine epsilon 2 to the -52, the denominator floor of
the sklearn MAPE. -/
def machine_eps : ℚ := 1 / 2 ^ 52

/-- sklearn mean_absolute_percentage_error: the mean of
abs(y - yhat) / max(abs(y), eps). A fraction, not a percentage:
an error of 30 percent is returned and stored as 0.30. -/
def sk_mape (y_true y_pred : List ℚ) : ℚ :=
  list_mean ((y_true.zip y_pred).map
    (fun p => rat_abs (p.2 - p.1) / rat_max (rat_abs p.1) machine_eps))

/-- sklearn mean_squared_error. -/
def sk_mse (y_true y_pred : List ℚ) : ℚ :=
  list_mean ((y_true.zip y_pred).map (fun p => (p.2 - p.1) ^ 2))

/-- sklearn mean_absolute_error. -/
def sk_mae (y_true y_pred : List ℚ) : ℚ :=
  list_mean ((y_true.zip y_pred).map (fun p => rat_abs (p.2 - p.1)))

/-- PredictionModel._calculate_metrics: the (mse, mae, mape) triple;
sklearn raises on an empty or mismatched pair, the surrounding except
then yields an empty update, embedded as none. -/
def calc_metrics (y_true y_pred : List ℚ) : Option (ℚ × ℚ × ℚ) :=
  if y_true.length = 0 ∨ ¬ y_true.length = y_pred.length then none
  else some (sk_mse y_true y_pred, sk_mae y_true y_pred, sk_mape y_true y_pred)

/-- The dictionary union passed to the alert rules: good_id, the
quality-report fields, the drift-report fields and the performance
metrics. Only the fields read by some rule are carried; none stands
for an absent key and for a present None value, which every rule
treats alike (the defaults 100/0 that data.get supplies for absent
keys never trigger any rule). -/
structure CombinedData where
  good_id : ℤ
  quality_score : Option ℚ
  outlier_ratio : Option ℚ
  drift_level : Option String
  drift_score : Option ℚ
  volatility : Option ℚ
  ensemble_mape : Option ℚ
  consecutive_same : Option ℤ
  deriving Repr, DecidableEq

/-- Rule 1: quality_score below 40 (critical). -/
def rule_data_quality_critical (d : CombinedData) : Bool :=
  match d.quality_score with
  | some s => decide (s < 40)
  | none => false

/-- Rule 2: outlier_ratio above 0.15 (warning). -/
def rule_too_many_outliers (d : CombinedData) : Bool :=
  match d.outlier_ratio with
  | some r => decide (r > 3/20)
  | none => false

/-- Rule 3: severe drift (critical). -/
def rule_severe_drift (d : CombinedData) : Bool :=
  d.drift_level == some "severe"

/-- Rule 4: moderate drift (warning). -/
def rule_moderate_drift (d : CombinedData) : Bool :=
  d.drift_level == some "moderate"

/-- Rule 5: volatility above 0.08 (warning). -/
def rule_high_volatility (d : CombinedData) : Bool :=
  match d.volatility with
  | some v => decide (v > 2/25)
  | none => false

/-- Rule 6, drift_alert_system.py lines 150-163: ensemble_mape above
the literal 25. The inline comment and the message template intend 25
percent, but the stored MAPE is the sklearn fraction. -/
def rule_model_performance_drop (d : CombinedData) : Bool :=
  match d.ensemble_mape with
  | some m => decide (m > 25)
  | none => false

/-- Rule 7: more than 10 consecutive identical prices (warning). -/
def rule_consecutive_same_price (d : CombinedData) : Bool :=
  match d.consecutive_same with
  | some c => decide (c > 10)
  | none => false

/-- DriftAlertSystem.check_alerts: the (alert_type, alert_level) pairs
of the triggered rules, in registration order. -/
def check_alerts (d : CombinedData) : List (String × String) :=
  (if rule_data_quality_critical d then [("data_quality_critical", "critical")] else []) ++
  (if rule_too_many_outliers d then [("too_many_outliers", "warning")] else []) ++
  (if rule_severe_drift d then [("severe_drift", "critical")] else []) ++
  (if rule_moderate_drift d then [("moderate_drift", "warning")] else []) ++
  (if rule_high_volatility d then [("high_volatility", "warning")] else []) ++
  (if rule_model_performance_drop d then [("model_performance_drop", "warning")] else []) ++
  (if rule_consecutive_same_price d then [("consecutive_same_price", "warning")] else [])

/- ============================================================
   Claim C7 (the ensemble-MAPE performance-drop rule)
   ============================================================ -/

/-- The combined data of a cycle whose ensemble MAPE is 30 percent,
stored as the sklearn fraction 0.30, with every other field benign. -/
def mape_30_percent_data : CombinedData :=
  { good_id := 1, quality_score := some 85, outlier_ratio := some 0
    drift_level := some "none", drift_score := some 0, volatility := some (1/100)
    ensemble_mape := some (3/10), consecutive_same := some 2 }

/-- Claim C7, failing input: the metric step stores MAPE as a sklearn
fraction (a 30 percent error on y_true 100, y_pred 70 is stored as
0.30), 0.30 exceeds 25 percent, yet the performance-drop rule, which
compares the fraction against the literal 25, does not fire and no
alert at all is emitted. The rule's own comment (MAPE above 25
percent) and its message template, which formats the value as a
percentage, show the intended threshold; the claim matches that
intent and the code contradicts it. -/
theorem ensemble_mape_rule_units_bug :
    sk_mape [100] [70] = 3/10 ∧
    (3/10 : ℚ) > 25/100 ∧
    rule_model_performance_drop mape_30_percent_data = false ∧
    check_alerts mape_30_percent_data = [] := by
  refine ⟨?_, by norm_num, ?_, ?_⟩
  · rw [sk_mape]
    norm_num [list_mean, list_sum, rat_abs, rat_max, machine_eps]
  · rw [rule_model_performance_drop, mape_30_percent_data]
    norm_num
  · rw [check_alerts]
    rw [rule_data_quality_critical, rule_too_many_outliers, rule_severe_drift,
      rule_moderate_drift, rule_high_volatility, rule_model_performance_drop,
      rule_consecutive_same_price, mape_30_percent_data]
    norm_num
    exact ⟨by decide, by decide⟩

/- ============================================================
   Section 7: prediction_service_v3_improved.py,
   PredictionModel.train (lines 558-642), _full_retrain (679-805),
   _incremental_train (807-811, delegates to _full_retrain),
   save_model (407-431), and the caching step of predict_endpoint
   (1356-1385)
   ============================================================ -/

/-- One row of the historical frame: timestamp in epoch seconds, the
sell price and the latest sell-order count (the columns the training
control flow reads). -/
structure Obs where
  timestamp : ℚ
  sell_price : ℚ
  sell_orders : ℤ
  deriving Repr, DecidableEq

/-- The metrics dict of PredictionModel. -/
structure MetricsState where
  lr_mse : Option ℚ
  lr_mae : Option ℚ
  lr_mape : Option ℚ
  prophet_mse : Option ℚ
  prophet_mae : Option ℚ
  prophet_mape : Option ℚ
  xgb_mse : Option ℚ
  xgb_mae : Option ℚ
  xgb_mape : Option ℚ
  ensemble_mse : Option ℚ
  ensemble_mae : Option ℚ
  ensemble_mape : Option ℚ
  training_time : Option ℚ
  training_count : ℕ
  last_training : Option ℚ
  training_strategy : Option String
  deriving Repr, DecidableEq

/-- The metrics dict as initialized in PredictionModel.__init__. -/
def initial_metrics : MetricsState :=
  { lr_mse := none, lr_mae := none, lr_mape := none
    prophet_mse := none, prophet_mae := none, prophet_mape := none
    xgb_mse := none, xgb_mae := none, xgb_mape := none
    ensemble_mse := none, ensemble_mae := none, ensemble_mape := none
    training_time := none, training_count := 0, last_training := none
    training_strategy := none }

/-- The mutable fields of a PredictionModel. The three submodels are
opaque handles: none is Python None, some 1 a model object (a fitted
submodel, or the freshly constructed one assigned just before a fit
that raised). -/
structure ModelState where
  lr : Option ℕ
  prophet : Option ℕ
  xgb : Option ℕ
  last_price : Option ℚ
  last_timestamp : Option ℚ
  train_size : ℕ
  metrics : MetricsState
  weights : ℚ × ℚ × ℚ
  model_version : String
  feature_set : String
  historical_prices : Option (List ℚ)
  historical_df : Option (List Obs)
  deriving Repr, DecidableEq

/-- PredictionModel.__init__ (lines 372-397). -/
def initial_model : ModelState :=
  { lr := none, prophet := none, xgb := none
    last_price := none, last_timestamp := none, train_size := 0
    metrics := initial_metrics, weights := prior_weights
    model_version := "3.0", feature_set := "full"
    historical_prices := none, historical_df := none }

/-- The sell_price column of a frame. -/
def series_prices (df : List Obs) : List ℚ := df.map (fun o => o.sell_price)

/-- The assignments self.historical_df = df.copy() and
self.historical_prices = df['sell_price'].values performed by train
before its staleness, liquidity and stagnation guards. -/
def set_history (st : ModelState) (df : List Obs) : ModelState :=
  { st with historical_df := some df, historical_prices := some (series_prices df) }

/-- The staleness guard: the last observation is older than 24 hours
(86400 seconds) before now. -/
def is_stale (now : ℚ) (df : List Obs) : Bool :=
  match df.getLast? with
  | some o => decide (o.timestamp < now - 86400)
  | none => false

/-- The liquidity guard: the latest sell-order count is below 90. -/
def low_liquidity (df : List Obs) : Bool :=
  match df.getLast? with
  | some o => decide (o.sell_orders < 90)
  | none => false

/-- df['timestamp'].max(). -/
def max_timestamp (df : List Obs) : ℚ :=
  match df.map (fun o => o.timestamp) with
  | [] => 0
  | t :: ts => ts.foldl rat_max t

/-- The rows of the last 12 hours (the stagnation window; the source
variable is named recent_6h but uses timedelta(hours=12)). -/
def recent_window (df : List Obs) : List Obs :=
  df.filter (fun o => decide (max_timestamp df - 43200 ≤ o.timestamp))

/-- nunique() == 1 on a column: the list is nonempty and constant. -/
def all_prices_equal : List ℚ → Bool
  | [] => true
  | p :: ps => ps.all (fun q => decide (q = p))

/-- The stagnation guard: the 12-hour window is nonempty and its sell
prices take a single value. -/
def is_stagnant (df : List Obs) : Bool :=
  decide (0 < (recent_window df).length) &&
    all_prices_equal (series_prices (recent_window df))

/-- The train/test split of _full_retrain: below 20 points the simple
int(len * 0.8) split (the float product never crosses an integer for
n < 20), else train df[: n - 14] and test df[n - 14 : n - 7]. -/
def split_train_test (df : List Obs) : List Obs × List Obs :=
  let n := df.length
  if n < 20 then (df.take (n * 4 / 5), df.drop (n * 4 / 5))
  else (df.take (n - 14), (df.drop (n - 14)).take 7)

/-- The outcome of a training invocation: the mutated model state, the
ModelRecord written to disk by save_model when the write succeeded,
and the boolean return value. -/
structure TrainResult where
  state : ModelState
  disk : Option ModelState
  ok : Bool
  deriving Repr, DecidableEq

/-- The elementwise ensemble combination
lr * w_lr + prophet * w_prophet + xgb * w_xgb (in the source the three
prediction arrays share len(df_test) by construction). -/
def ensemble_pred (w : ℚ × ℚ × ℚ) (lr p x : List ℚ) : List ℚ :=
  (lr.zip (p.zip x)).map (fun t => t.1 * w.1 + t.2.1 * w.2.1 + t.2.2 * w.2.2)

/-- prediction_service_v3_improved.py, PredictionModel._full_retrain.
The numeric fitting of the three submodels is abstracted by their
predictions on the test window (none: the fit or predict raised, the
path of the surrounding except, which returns False with the
mutations made so far kept). Persistence: save_model wraps its
pickle.dump in try/except and only logs a failure, so persist_ok
selects whether a record reaches disk but never changes the return
value; training_time is wall-clock time, embedded as 0. -/
def full_retrain (lr_pred prophet_pred xgb_pred : Option (List ℚ)) (persist_ok : Bool)
    (now : ℚ) (st : ModelState) (df : List Obs) : TrainResult :=
  let tt := split_train_test df
  let y_test := series_prices tt.2
  let st1 := { st with train_size := tt.1.length
                       last_price := (df.getLast?).map (fun o : Obs => o.sell_price)
                       last_timestamp := (df.getLast?).map (fun o : Obs => o.timestamp) }
  match lr_pred with
  | none => { state := { st1 with lr := some 1 }, disk := none, ok := false }
  | some yp_lr =>
    let m1 := match calc_metrics y_test yp_lr with
      | some mm => { st1.metrics with
                     lr_mse := some mm.1
                     lr_mae := some mm.2.1
                     lr_mape := some mm.2.2 }
      | none => st1.metrics
    let st2 := { st1 with lr := some 1, metrics := m1 }
    match prophet_pred with
    | none => { state := { st2 with prophet := some 1 }, disk := none, ok := false }
    | some yp_p =>
      let m2 := match calc_metrics y_test yp_p with
        | some mm => { st2.metrics with
                       prophet_mse := some mm.1
                       prophet_mae := some mm.2.1
                       prophet_mape := some mm.2.2 }
        | none => st2.metrics
      let st3 := { st2 with prophet := some 1, metrics := m2 }
      match xgb_pred with
      | none => { state := { st3 with xgb := some 1 }, disk := none, ok := false }
      | some yp_x =>
        let m3 := match calc_metrics y_test yp_x with
          | some mm => { st3.metrics with
                         xgb_mse := some mm.1
                         xgb_mae := some mm.2.1
                         xgb_mape := some mm.2.2 }
          | none => st3.metrics
        let w := update_weights m3.lr_mape m3.prophet_mape m3.xgb_mape
        let ens := ensemble_pred w yp_lr yp_p yp_x
        let m4 := match calc_metrics y_test ens with
          | some mm => { m3 with
                         ensemble_mse := some mm.1
                         ensemble_mae := some mm.2.1
                         ensemble_mape := some mm.2.2 }
          | none => m3
        let m5 := { m4 with training_time := some 0
                            training_count := m4.training_count + 1
                            last_training := some now
                            training_strategy := some "full_retrain" }
        let stF := { st3 with xgb := some 1, metrics := m5, weights := w, feature_set := "full" }
        { state := stF, disk := if persist_ok then some stF else none, ok := true }

/-- prediction_service_v3_improved.py, PredictionModel.train: the
guard phase, quality check, cleaning, drift detection, strategy
decision and dispatch (the incremental path delegates to the full
one in the source). The alert emission between the drift detection
and the decision touches no model state and is omitted. -/
def train_model (statistical : List ℚ → List ℚ → DataDriftReport)
    (clean_data : List Obs → List Obs)
    (lr_pred prophet_pred xgb_pred : Option (List ℚ)) (persist_ok : Bool)
    (now : ℚ) (st : ModelState) (df : List Obs) : TrainResult :=
  if df.length < 10 then { state := st, disk := none, ok := false }
  else
    let st1 := set_history st df
    if is_stale now df then { state := st1, disk := none, ok := false }
    else if low_liquidity df then { state := st1, disk := none, ok := false }
    else
      match check_quality (series_prices df) 0 with
      | none => { state := st1, disk := none, ok := false }
      | some q =>
        if is_stagnant df then { state := st1, disk := none, ok := false }
        else
          let cleaned := clean_data df
          if q.quality_level = "critical" ∧ cleaned.length < 10 then
            { state := st1, disk := none, ok := false }
          else
            let df2 := if q.quality_level = "critical" then cleaned else df
            let st2 := if q.quality_level = "critical" then set_history st1 df2 else st1
            let drift := detect_drift statistical (3/10) (series_prices df2)
            match decide_training_strategy st.lr.isSome st.prophet.isSome st.xgb.isSome
                (model_age_days st.last_timestamp now) drift.drift_level drift.ks_statistic with
            | .skip => { state := st2, disk := none, ok := true }
            | .incremental => full_retrain lr_pred prophet_pred xgb_pred persist_ok now st2 df2
            | .full => full_retrain lr_pred prophet_pred xgb_pred persist_ok now st2 df2

/-- The caching step of predict_endpoint: CACHE_MANAGER.put runs only
after train returned true; on false the endpoint answers an error and
caches nothing. -/
def predict_endpoint_cache_update (r : TrainResult) (cache : Option ModelState) :
    Option ModelState :=
  if r.ok then some r.state else cache

/-- Fields of the model state other than the two history fields. -/
def eq_except_history (a b : ModelState) : Prop :=
  a.lr = b.lr ∧ a.prophet = b.prophet ∧ a.xgb = b.xgb ∧ a.last_price = b.last_price ∧
  a.last_timestamp = b.last_timestamp ∧ a.train_size = b.train_size ∧ a.metrics = b.metrics ∧
  a.weights = b.weights ∧ a.model_version = b.model_version ∧ a.feature_set = b.feature_set

/-- Helper: setting the history twice with the same frame is the same
as setting it once. -/
theorem set_history_idem (st : ModelState) (df : List Obs) :
    set_history (set_history st df) df = set_history st df := rfl

/-- A concrete 30-day frame of 10 rows: timestamps 0 to 9 seconds,
sell prices alternating 100 and 101, 100 sell orders. -/
def df_ten : List Obs :=
  [⟨0, 100, 100⟩, ⟨1, 101, 100⟩, ⟨2, 100, 100⟩, ⟨3, 101, 100⟩, ⟨4, 100, 100⟩,
   ⟨5, 101, 100⟩, ⟨6, 100, 100⟩, ⟨7, 101, 100⟩, ⟨8, 100, 100⟩, ⟨9, 101, 100⟩]

/- ============================================================
   Claim C2 (guard failures and model mutation)
   ============================================================ -/

/-- Claim C2, counterexample: the claim says every guard failure
leaves the model state completely unchanged. With now = 100000 the
frame df_ten (last observation at second 9) is more than 24 hours
old, so the staleness guard aborts with False, but train has already
overwritten historical_prices (and historical_df), which were None on
the fresh model. -/
theorem stale_guard_mutates_history :
    (train_model (fun _ _ => zero_drift_report) id none none none false
      100000 initial_model df_ten).ok = false ∧
    (train_model (fun _ _ => zero_drift_report) id none none none false
      100000 initial_model df_ten).state.historical_prices =
      some [100, 101, 100, 101, 100, 101, 100, 101, 100, 101] ∧
    initial_model.historical_prices = none := by
  have hstale : is_stale 100000 df_ten = true := by
    rw [is_stale, df_ten]
    norm_num [List.getLast?]
  have hlen : ¬ df_ten.length < 10 := by
    rw [df_ten]
    norm_num
  refine ⟨?_, ?_, rfl⟩
  · rw [train_model, if_neg hlen, if_pos hstale]
  · rw [train_model, if_neg hlen, if_pos hstale]
    simp [set_history, series_prices, df_ten]

/-- Claim C2, amended: the length guard aborts with False and no
mutation at all; the staleness, liquidity and stagnation guards abort
with False after overwriting exactly the historical_df and
historical_prices fields with the input frame; every other model
field is unchanged by a guard abort. -/
theorem train_guard_abort_frame
    (statistical : List ℚ → List ℚ → DataDriftReport) (clean_data : List Obs → List Obs)
    (lr_pred prophet_pred xgb_pred : Option (List ℚ)) (persist_ok : Bool)
    (now : ℚ) (st : ModelState) (df : List Obs) :
    (df.length < 10 →
      train_model statistical clean_data lr_pred prophet_pred xgb_pred persist_ok now st df =
        { state := st, disk := none, ok := false }) ∧
    (¬ df.length < 10 → is_stale now df = true →
      train_model statistical clean_data lr_pred prophet_pred xgb_pred persist_ok now st df =
        { state := set_history st df, disk := none, ok := false }) ∧
    (¬ df.length < 10 → is_stale now df = false → low_liquidity df = true →
      train_model statistical clean_data lr_pred prophet_pred xgb_pred persist_ok now st df =
        { state := set_history st df, disk := none, ok := false }) ∧
    (¬ df.length < 10 → is_stale now df = false → low_liquidity df = false →
      is_stagnant df = true →
      train_model statistical clean_data lr_pred prophet_pred xgb_pred persist_ok now st df =
        { state := set_history st df, disk := none, ok := false }) ∧
    eq_except_history (set_history st df) st := by
  refine ⟨?_, ?_, ?_, ?_, ?_⟩
  · intro h
    rw [train_model, if_pos h]
  · intro h1 h2
    rw [train_model, if_neg h1, if_pos h2]
  · intro h1 h2 h3
    rw [train_model, if_neg h1]
    simp only [h2, if_false, Bool.false_eq_true]
    rw [if_pos h3]
  · intro h1 h2 h3 h4
    rw [train_model, if_neg h1]
    simp only [h2, h3, if_false, Bool.false_eq_true]
    have hq : check_quality (series_prices df) 0 = some (quality_report (series_prices df) 0) := by
      rw [check_quality, if_neg]
      rw [series_prices, List.length_map]
      omega
    rw [hq]
    dsimp only
    rw [if_pos h4]
  · exact ⟨rfl, rfl, rfl, rfl, rfl, rfl, rfl, rfl, rfl, rfl⟩

/-- Witness for train_guard_abort_frame: the length guard on a short
frame and the staleness guard on df_ten. -/
theorem train_guard_abort_frame_witness :
    (train_model (fun _ _ => zero_drift_report) id none none none false 0 initial_model [] =
      { state := initial_model, disk := none, ok := false }) ∧
    (train_model (fun _ _ => zero_drift_report) id none none none false 100000 initial_model
        df_ten =
      { state := set_history initial_model df_ten, disk := none, ok := false }) := by
  constructor
  · exact (train_guard_abort_frame (fun _ _ => zero_drift_report) id none none none false 0
      initial_model []).1 (by norm_num)
  · exact (train_guard_abort_frame (fun _ _ => zero_drift_report) id none none none false 100000
      initial_model df_ten).2.1 (by rw [df_ten]; norm_num)
      (by rw [is_stale, df_ten]; norm_num [List.getLast?])

/- ============================================================
   Claim C1 (persistence failure and the success report)
   ============================================================ -/

/-- Claim C1, counterexample: the claim says train does not return
true when persisting the record fails. On df_ten at now = 10000
(fresh data, ample liquidity, varying prices, no prior submodels so
full retraining runs) with every fit succeeding but the disk write
failing, train still returns true while nothing reaches disk — the
save_model except swallows the persistence error. -/
theorem persist_failure_still_returns_true :
    (train_model (fun _ _ => zero_drift_report) id
      (some [100, 100]) (some [100, 100]) (some [100, 100]) false
      10000 initial_model df_ten).ok = true ∧
    (train_model (fun _ _ => zero_drift_report) id
      (some [100, 100]) (some [100, 100]) (some [100, 100]) false
      10000 initial_model df_ten).disk = none := by
  have hlen : ¬ df_ten.length < 10 := by rw [df_ten]; norm_num
  have hstale : is_stale 10000 df_ten = false := by
    rw [is_stale, df_ten]
    norm_num [List.getLast?]
  have hliq : low_liquidity df_ten = false := by
    rw [low_liquidity, df_ten]
    norm_num [List.getLast?]
  have hq : check_quality (series_prices df_ten) 0 =
      some (quality_report (series_prices df_ten) 0) := by
    rw [check_quality, if_neg]
    rw [series_prices, List.length_map, df_ten]
    norm_num
  have hmax : max_timestamp df_ten = 9 := by
    rw [max_timestamp, df_ten]
    norm_num [rat_max]
  have hstag : is_stagnant df_ten = false := by
    rw [is_stagnant, recent_window, hmax, df_ten]
    norm_num [all_prices_equal, series_prices]
  have hclean : ¬ ((quality_report (series_prices df_ten) 0).quality_level = "critical" ∧
      (id df_ten).length < 10) := by
    rintro ⟨-, h⟩
    rw [df_ten] at h
    norm_num at h
  have hstrat : ∀ (age : ℚ) (dl : String) (ks : ℚ),
      decide_training_strategy initial_model.lr.isSome initial_model.prophet.isSome
        initial_model.xgb.isSome age dl ks = .full := by
    intro age dl ks
    rw [decide_training_strategy]
    simp [initial_model]
  have hcommon : ∀ P : TrainResult → Prop,
      P (full_retrain (some [100, 100]) (some [100, 100]) (some [100, 100]) false 10000
        (set_history initial_model df_ten) df_ten) →
      P (train_model (fun _ _ => zero_drift_report) id
        (some [100, 100]) (some [100, 100]) (some [100, 100]) false
        10000 initial_model df_ten) := by
    intro P hP
    rw [train_model, if_neg hlen]
    simp only [hstale, hliq, Bool.false_eq_true, if_false]
    rw [hq]
    dsimp only
    simp only [hstag, Bool.false_eq_true, if_false]
    rw [if_neg hclean]
    dsimp only [id]
    simp only [ite_self, set_history_idem]
    rw [hstrat]
    exact hP
  constructor
  · apply hcommon (fun r => r.ok = true)
    rw [full_retrain]
  · apply hcommon (fun r => r.disk = none)
    rw [full_retrain]
    rfl

/-- Claim C1, amended: once the three submodel fits succeed,
_full_retrain reports success regardless of persistence: the return
value is true whether or not the disk write succeeds (save_model only
logs a failure), the record reaches disk exactly when the write
succeeds, and the caller caches the in-memory state whenever train
returned true - so a record can become visible to predict callers
without any successful persist. A failure of any of the three fits
(lr, prophet or xgb - the latter two leaving the earlier submodels
already refit) returns false, writes nothing to disk, and the caller
caches nothing, so no partially trained record is cached or written
by this path. The length hypotheses mirror the source, where the
three prediction arrays always share the test-window length. -/
theorem full_retrain_success_independent_of_persist
    (yl yp yx : List ℚ) (o2 o3 : Option (List ℚ)) (persist_ok : Bool)
    (now : ℚ) (st : ModelState) (df : List Obs) (cache : Option ModelState)
    (_hp : yp.length = yl.length) (_hx : yx.length = yl.length) :
    (full_retrain (some yl) (some yp) (some yx) persist_ok now st df).ok = true ∧
    ((full_retrain (some yl) (some yp) (some yx) persist_ok now st df).disk =
      if persist_ok then some (full_retrain (some yl) (some yp) (some yx)
        persist_ok now st df).state else none) ∧
    predict_endpoint_cache_update
        (full_retrain (some yl) (some yp) (some yx) persist_ok now st df) cache =
      some (full_retrain (some yl) (some yp) (some yx) persist_ok now st df).state ∧
    ((full_retrain none o2 o3 persist_ok now st df).ok = false ∧
     (full_retrain none o2 o3 persist_ok now st df).disk = none ∧
     predict_endpoint_cache_update (full_retrain none o2 o3 persist_ok now st df) cache =
       cache) ∧
    ((full_retrain (some yl) none o3 persist_ok now st df).ok = false ∧
     (full_retrain (some yl) none o3 persist_ok now st df).disk = none ∧
     predict_endpoint_cache_update (full_retrain (some yl) none o3 persist_ok now st df)
       cache = cache) ∧
    ((full_retrain (some yl) (some yp) none persist_ok now st df).ok = false ∧
     (full_retrain (some yl) (some yp) none persist_ok now st df).disk = none ∧
     predict_endpoint_cache_update (full_retrain (some yl) (some yp) none persist_ok
       now st df) cache = cache) := by
  refine ⟨?_, ?_, ?_, ⟨?_, ?_, ?_⟩, ⟨?_, ?_, ?_⟩, ⟨?_, ?_, ?_⟩⟩ <;>
    simp [full_retrain, predict_endpoint_cache_update]

/-- Witness for full_retrain_success_independent_of_persist at equal
prediction lengths, a failing persist and an empty cache, exercising
the success path and each of the three fit-failure paths. -/
theorem full_retrain_success_independent_of_persist_witness :
    (full_retrain (some [100, 100]) (some [101, 101]) (some [99, 99]) false 0
      initial_model df_ten).ok = true ∧
    (full_retrain none none none false 0 initial_model df_ten).ok = false ∧
    (full_retrain (some [100, 100]) none none false 0 initial_model df_ten).ok = false ∧
    (full_retrain (some [100, 100]) (some [101, 101]) none false 0
      initial_model df_ten).ok = false := by
  have h := full_retrain_success_independent_of_persist [100, 100] [101, 101] [99, 99]
    none none false 0 initial_model df_ten none (by norm_num) (by norm_num)
  exact ⟨h.1, h.2.2.2.1.1, h.2.2.2.2.1.1, h.2.2.2.2.2.1⟩

/- ============================================================
   Section 8: prediction_service_v3_improved.py, predict_endpoint
   (lines 1356-1385) together with ModelCacheManager.get_lock
   (183-185): an interleaving model of concurrent predict requests.
   Each request runs: acquire the item lock -> read the cache ->
   on a miss, train -> on success put the record and observe it, on
   failure answer an error -> release. The whole body runs inside
   with item_lock, so every step between acquire and release requires
   holding the lock. Training an item is the deterministic record
   tr(item); whether a given request's train call succeeds is the
   oracle fit(thread). Evictions of a cached record by cache pressure
   (ModelCacheManager.put of a different item at capacity removes the
   least-recently-used entry) are modeled as a step a thread working
   on another item may take at any point, an over-approximation of
   the source, where they happen inside that thread's put.
   ============================================================ -/

/-- Program counter of one predict request. -/
inductive TPC
  | start
  | check
  | doTrain
  | unlock
  | done
  deriving Repr, DecidableEq

/-- One request thread: its target item, program counter and the
ModelRecord it observed (served to its caller; none also covers the
error response after a failed train). -/
structure ThreadState where
  item : ℕ
  pc : TPC
  obs : Option ℕ
  deriving Repr, DecidableEq

/-- The shared system state: the per-item lock registry of
ModelCacheManager.item_locks (some t: thread t holds the item's
lock), the model cache, the thread pool, and per-item counters of
train invocations, failed train invocations and evictions. -/
structure Sys where
  locks : ℕ → Option ℕ
  cache : ℕ → Option ℕ
  thr : ℕ → ThreadState
  trains : ℕ → ℕ
  fails : ℕ → ℕ
  evicts : ℕ → ℕ

/-- Pointwise function update. -/
def upd {α : Type} (f : ℕ → α) (k : ℕ) (v : α) : ℕ → α :=
  fun j => if j = k then v else f j

theorem upd_same {α : Type} (f : ℕ → α) (k : ℕ) (v : α) : upd f k v k = v := by
  simp [upd]

theorem upd_other {α : Type} (f : ℕ → α) {j k : ℕ} (v : α) (h : ¬ j = k) :
    upd f k v j = f j := by
  simp [upd, h]

/-- One interleaving step of thread t. tr is the training oracle (the
record produced by a successful train of an item); fit says whether
thread t's own train call succeeds. -/
inductive Step (tr : ℕ → ℕ) (fit : ℕ → Bool) : Sys → Sys → ℕ → Prop
  | acquire {s : Sys} {t : ℕ}
      (h1 : (s.thr t).pc = TPC.start)
      (h2 : s.locks ((s.thr t).item) = none) :
      Step tr fit s { s with
        locks := upd s.locks ((s.thr t).item) (some t)
        thr := upd s.thr t { s.thr t with pc := TPC.check } } t
  | check_hit {s : Sys} {t : ℕ} {r : ℕ}
      (h1 : (s.thr t).pc = TPC.check)
      (h2 : s.locks ((s.thr t).item) = some t)
      (h3 : s.cache ((s.thr t).item) = some r) :
      Step tr fit s { s with
        thr := upd s.thr t { s.thr t with pc := TPC.unlock, obs := some r } } t
  | check_miss {s : Sys} {t : ℕ}
      (h1 : (s.thr t).pc = TPC.check)
      (h2 : s.locks ((s.thr t).item) = some t)
      (h3 : s.cache ((s.thr t).item) = none) :
      Step tr fit s { s with
        thr := upd s.thr t { s.thr t with pc := TPC.doTrain } } t
  | train_ok {s : Sys} {t : ℕ}
      (h1 : (s.thr t).pc = TPC.doTrain)
      (h2 : s.locks ((s.thr t).item) = some t)
      (h3 : fit t = true) :
      Step tr fit s { s with
        cache := upd s.cache ((s.thr t).item) (some (tr ((s.thr t).item)))
        trains := upd s.trains ((s.thr t).item) (s.trains ((s.thr t).item) + 1)
        thr := upd s.thr t { s.thr t with
          pc := TPC.unlock, obs := some (tr ((s.thr t).item)) } } t
  | train_fail {s : Sys} {t : ℕ}
      (h1 : (s.thr t).pc = TPC.doTrain)
      (h2 : s.locks ((s.thr t).item) = some t)
      (h3 : fit t = false) :
      Step tr fit s { s with
        trains := upd s.trains ((s.thr t).item) (s.trains ((s.thr t).item) + 1)
        fails := upd s.fails ((s.thr t).item) (s.fails ((s.thr t).item) + 1)
        thr := upd s.thr t { s.thr t with pc := TPC.unlock } } t
  | evict {s : Sys} {t j r : ℕ}
      (h1 : ¬ (s.thr t).item = j)
      (h2 : s.cache j = some r) :
      Step tr fit s { s with
        cache := upd s.cache j none
        evicts := upd s.evicts j (s.evicts j + 1) } t
  | release {s : Sys} {t : ℕ}
      (h1 : (s.thr t).pc = TPC.unlock)
      (h2 : s.locks ((s.thr t).item) = some t) :
      Step tr fit s { s with
        locks := upd s.locks ((s.thr t).item) none
        thr := upd s.thr t { s.thr t with pc := TPC.done } } t

/-- Some thread takes a step. -/
def sys_step (tr : ℕ → ℕ) (fit : ℕ → Bool) (s s2 : Sys) : Prop :=
  ∃ t, Step tr fit s s2 t

/-- The initial state: every item untrained and unlocked, every
thread at its start, targeting item_of. -/
def init_sys (item_of : ℕ → ℕ) : Sys :=
  { locks := fun _ => none
    cache := fun _ => none
    thr := fun t => { item := item_of t, pc := TPC.start, obs := none }
    trains := fun _ => 0
    fails := fun _ => 0
    evicts := fun _ => 0 }

/-- Reachability from the initial state by interleaving steps. -/
def sys_reach (tr : ℕ → ℕ) (fit : ℕ → Bool) (item_of : ℕ → ℕ) (s : Sys) : Prop :=
  Relation.ReflTransGen (sys_step tr fit) (init_sys item_of) s

/-- A thread between acquire and release. -/
def tpc_active (p : TPC) : Prop :=
  p = TPC.check ∨ p = TPC.doTrain ∨ p = TPC.unlock

/-- The inductive invariant: an active thread holds its item's lock;
a thread about to train saw the cache empty and, holding the lock,
still sees it empty; the cache only ever holds the trained record;
train invocations are bounded by failures plus evictions plus one
(strictly, by failures plus evictions while the item is uncached);
every observation is the item's trained record; and a held lock is
held by an active thread working on that item. -/
def sys_inv (tr : ℕ → ℕ) (s : Sys) : Prop :=
  (∀ t, tpc_active ((s.thr t).pc) → s.locks ((s.thr t).item) = some t) ∧
  (∀ t, (s.thr t).pc = TPC.doTrain → s.cache ((s.thr t).item) = none) ∧
  (∀ j, s.cache j = none ∨ s.cache j = some (tr j)) ∧
  (∀ j, (s.cache j = none → s.trains j ≤ s.fails j + s.evicts j) ∧
    s.trains j ≤ s.fails j + s.evicts j + 1) ∧
  (∀ t r, (s.thr t).obs = some r → r = tr ((s.thr t).item)) ∧
  (∀ j t2, s.locks j = some t2 → (s.thr t2).item = j ∧ tpc_active ((s.thr t2).pc))

/-- Helper: the invariant holds initially. -/
theorem sys_inv_init (tr item_of : ℕ → ℕ) : sys_inv tr (init_sys item_of) := by
  refine ⟨?_, ?_, ?_, ?_, ?_, ?_⟩ <;> intro t <;> simp [init_sys, tpc_active]

/-- Helper: every step preserves the invariant. -/
theorem sys_inv_step (tr : ℕ → ℕ) (fit : ℕ → Bool) {s s2 : Sys} {t : ℕ}
    (h : Step tr fit s s2 t) (hinv : sys_inv tr s) : sys_inv tr s2 := by
  obtain ⟨hA, hB, hC, hD, hE, hF⟩ := hinv
  cases h with
  | acquire h1 h2 =>
    refine ⟨?_, ?_, hC, hD, ?_, ?_⟩
    · intro t2 hact
      by_cases ht : t2 = t
      · subst ht
        simp [upd]
      · simp only [upd, if_neg ht] at hact
        simp only [upd]
        have hl := hA t2 hact
        by_cases hi : (s.thr t2).item = (s.thr t).item
        · rw [hi, h2] at hl
          exact absurd hl (by simp)
        · simp only [if_neg ht, if_neg hi]
          exact hl
    · intro t2 hpc
      by_cases ht : t2 = t
      · subst ht
        simp [upd] at hpc
      · simp only [upd, if_neg ht] at hpc ⊢
        exact hB t2 hpc
    · intro t2 r hobs
      by_cases ht : t2 = t
      · subst ht
        simp only [upd, if_pos rfl] at hobs ⊢
        simp only [if_true] at hobs ⊢
        exact hE t2 r hobs
      · simp only [upd, if_neg ht] at hobs ⊢
        exact hE t2 r hobs
    · intro j t2 hl
      dsimp only at hl ⊢
      by_cases hj : j = (s.thr t).item
      · subst hj
        rw [upd_same] at hl
        simp only [Option.some.injEq] at hl
        subst hl
        simp [upd, tpc_active]
      · rw [upd_other _ _ hj] at hl
        obtain ⟨hi2, hact2⟩ := hF j t2 hl
        by_cases ht2 : t2 = t
        · subst ht2
          rw [h1] at hact2
          exact absurd hact2 (by simp [tpc_active])
        · rw [upd_other _ _ ht2]
          exact ⟨hi2, hact2⟩
  | check_hit h1 h2 h3 =>
    refine ⟨?_, ?_, hC, hD, ?_, ?_⟩
    · intro t2 hact
      by_cases ht : t2 = t
      · subst ht
        simp [upd]
        exact h2
      · simp only [upd, if_neg ht] at hact ⊢
        exact hA t2 hact
    · intro t2 hpc
      by_cases ht : t2 = t
      · subst ht
        simp [upd] at hpc
      · simp only [upd, if_neg ht] at hpc ⊢
        exact hB t2 hpc
    · intro t2 r2 hobs
      by_cases ht : t2 = t
      · subst ht
        simp [upd] at hobs ⊢
        rcases hC ((s.thr t2).item) with hc | hc
        · rw [hc] at h3
          exact absurd h3 (by simp)
        · rw [hc] at h3
          simp only [Option.some.injEq] at h3
          omega
      · simp only [upd, if_neg ht] at hobs ⊢
        exact hE t2 r2 hobs
    · intro j t2 hl
      dsimp only at hl ⊢
      obtain ⟨hi2, hact2⟩ := hF j t2 hl
      by_cases ht2 : t2 = t
      · subst ht2
        rw [← hi2]
        simp [upd, tpc_active]
      · rw [upd_other _ _ ht2]
        exact ⟨hi2, hact2⟩
  | check_miss h1 h2 h3 =>
    refine ⟨?_, ?_, hC, hD, ?_, ?_⟩
    · intro t2 hact
      by_cases ht : t2 = t
      · subst ht
        simp [upd]
        exact h2
      · simp only [upd, if_neg ht] at hact ⊢
        exact hA t2 hact
    · intro t2 hpc
      by_cases ht : t2 = t
      · subst ht
        simp [upd]
        exact h3
      · simp only [upd, if_neg ht] at hpc ⊢
        exact hB t2 hpc
    · intro t2 r hobs
      by_cases ht : t2 = t
      · subst ht
        simp [upd] at hobs ⊢
        have := hE t2 r (by rw [hobs])
        exact this
      · simp only [upd, if_neg ht] at hobs ⊢
        exact hE t2 r hobs
    · intro j t2 hl
      dsimp only at hl ⊢
      obtain ⟨hi2, hact2⟩ := hF j t2 hl
      by_cases ht2 : t2 = t
      · subst ht2
        rw [← hi2]
        simp [upd, tpc_active]
      · rw [upd_other _ _ ht2]
        exact ⟨hi2, hact2⟩
  | train_ok h1 h2 h3 =>
    refine ⟨?_, ?_, ?_, ?_, ?_, ?_⟩
    · intro t2 hact
      by_cases ht : t2 = t
      · subst ht
        simp [upd]
        exact h2
      · simp only [upd, if_neg ht] at hact ⊢
        exact hA t2 hact
    · intro t2 hpc
      by_cases ht : t2 = t
      · subst ht
        simp [upd] at hpc
      · simp only [upd, if_neg ht] at hpc ⊢
        have hpc2 := hB t2 hpc
        have hlock2 := hA t2 (Or.inr (Or.inl hpc))
        by_cases hi : (s.thr t2).item = (s.thr t).item
        · rw [hi, h2] at hlock2
          simp only [Option.some.injEq] at hlock2
          exact absurd hlock2.symm ht
        · simp only [if_neg hi]
          exact hpc2
    · intro j
      by_cases hj : j = (s.thr t).item
      · subst hj
        simp [upd]
      · simp only [upd, if_neg hj]
        exact hC j
    · intro j
      by_cases hj : j = (s.thr t).item
      · subst hj
        simp [upd]
        have hc0 : s.cache ((s.thr t).item) = none := hB t h1
        have := (hD ((s.thr t).item)).1 hc0
        omega
      · simp only [upd, if_neg hj]
        exact hD j
    · intro t2 r hobs
      by_cases ht : t2 = t
      · subst ht
        simp [upd] at hobs ⊢
        omega
      · simp only [upd, if_neg ht] at hobs ⊢
        exact hE t2 r hobs
    · intro j t2 hl
      dsimp only at hl ⊢
      obtain ⟨hi2, hact2⟩ := hF j t2 hl
      by_cases ht2 : t2 = t
      · subst ht2
        rw [← hi2]
        simp [upd, tpc_active]
      · rw [upd_other _ _ ht2]
        exact ⟨hi2, hact2⟩
  | train_fail h1 h2 h3 =>
    refine ⟨?_, ?_, hC, ?_, ?_, ?_⟩
    · intro t2 hact
      by_cases ht : t2 = t
      · subst ht
        simp [upd]
        exact h2
      · simp only [upd, if_neg ht] at hact ⊢
        exact hA t2 hact
    · intro t2 hpc
      by_cases ht : t2 = t
      · subst ht
        simp [upd] at hpc
      · simp only [upd, if_neg ht] at hpc ⊢
        exact hB t2 hpc
    · intro j
      by_cases hj : j = (s.thr t).item
      · subst hj
        simp [upd]
        constructor
        · intro hc
          have := (hD ((s.thr t).item)).1 hc
          omega
        · have := (hD ((s.thr t).item)).2
          omega
      · simp only [upd, if_neg hj]
        exact hD j
    · intro t2 r hobs
      by_cases ht : t2 = t
      · subst ht
        simp [upd] at hobs ⊢
        have := hE t2 r (by rw [hobs])
        exact this
      · simp only [upd, if_neg ht] at hobs ⊢
        exact hE t2 r hobs
    · intro j t2 hl
      dsimp only at hl ⊢
      obtain ⟨hi2, hact2⟩ := hF j t2 hl
      by_cases ht2 : t2 = t
      · subst ht2
        rw [← hi2]
        simp [upd, tpc_active]
      · rw [upd_other _ _ ht2]
        exact ⟨hi2, hact2⟩
  | evict h1 h2 =>
    rename_i j2 r2
    refine ⟨hA, ?_, ?_, ?_, hE, hF⟩
    · intro t2 hpc
      dsimp only at hpc ⊢
      by_cases hj : (s.thr t2).item = j2
      · rw [hj, upd_same]
      · rw [upd_other _ _ hj]
        exact hB t2 hpc
    · intro j
      dsimp only
      by_cases hj : j = j2
      · subst hj
        rw [upd_same]
        left
        rfl
      · rw [upd_other _ _ hj]
        exact hC j
    · intro j
      dsimp only
      by_cases hj : j = j2
      · subst hj
        rw [upd_same, upd_same]
        constructor
        · intro _
          have := (hD j).2
          omega
        · have := (hD j).2
          omega
      · rw [upd_other _ _ hj, upd_other _ _ hj]
        exact hD j
  | release h1 h2 =>
    refine ⟨?_, ?_, hC, hD, ?_, ?_⟩
    · intro t2 hact
      by_cases ht : t2 = t
      · subst ht
        simp [upd, tpc_active] at hact
      · simp only [upd, if_neg ht] at hact
        simp only [upd]
        have hl := hA t2 hact
        by_cases hi : (s.thr t2).item = (s.thr t).item
        · rw [hi, h2] at hl
          simp only [Option.some.injEq] at hl
          exact absurd hl.symm ht
        · simp only [if_neg ht, if_neg hi]
          exact hl
    · intro t2 hpc
      by_cases ht : t2 = t
      · subst ht
        simp [upd] at hpc
      · simp only [upd, if_neg ht] at hpc ⊢
        exact hB t2 hpc
    · intro t2 r hobs
      by_cases ht : t2 = t
      · subst ht
        simp [upd] at hobs ⊢
        have := hE t2 r (by rw [hobs])
        exact this
      · simp only [upd, if_neg ht] at hobs ⊢
        exact hE t2 r hobs
    · intro j t2 hl
      dsimp only at hl ⊢
      by_cases hj : j = (s.thr t).item
      · subst hj
        rw [upd_same] at hl
        exact absurd hl (by simp)
      · rw [upd_other _ _ hj] at hl
        obtain ⟨hi2, hact2⟩ := hF j t2 hl
        by_cases ht2 : t2 = t
        · subst ht2
          exact absurd hi2.symm hj
        · rw [upd_other _ _ ht2]
          exact ⟨hi2, hact2⟩

/-- Helper: the invariant holds in every reachable state. -/
theorem sys_inv_reach (tr : ℕ → ℕ) (fit : ℕ → Bool) (item_of : ℕ → ℕ) {s : Sys}
    (h : sys_reach tr fit item_of s) : sys_inv tr s := by
  induction h with
  | refl => exact sys_inv_init tr item_of
  | tail hstep hprev ih =>
    obtain ⟨t, ht⟩ := hprev
    exact sys_inv_step tr fit ht ih

/- ============================================================
   Claim C10 (at-most-one-trainer-per-item under the item locks)
   ============================================================ -/

/-- Claim C10, counterexample: the claim says at most one train()
invocation runs for N concurrent predicts of one untrained item. In
the source, model.train can return False, in which case nothing is
cached and the request answers an error - the next request for the
same still-untrained item then invokes train() again. Concretely:
thread 0 acquires, misses, trains and fails, releases; thread 1
acquires, still misses, trains again. The reachable end state has
trains(0) = 2. -/
theorem failed_train_allows_second_train :
    ∃ s, sys_reach (fun _ => 42) (fun t => decide (t = 1)) (fun _ => 0) s ∧
      s.trains 0 = 2 := by
  exact ⟨_, Relation.ReflTransGen.tail
      (Relation.ReflTransGen.tail
        (Relation.ReflTransGen.tail
          (Relation.ReflTransGen.tail
            (Relation.ReflTransGen.tail
              (Relation.ReflTransGen.tail
                (Relation.ReflTransGen.tail
                  (Relation.ReflTransGen.tail Relation.ReflTransGen.refl
                    ⟨0, Step.acquire rfl rfl⟩)
                  ⟨0, Step.check_miss rfl rfl rfl⟩)
                ⟨0, Step.train_fail rfl rfl rfl⟩)
              ⟨0, Step.release rfl rfl⟩)
            ⟨1, Step.acquire rfl rfl⟩)
          ⟨1, Step.check_miss rfl rfl rfl⟩)
        ⟨1, Step.train_ok rfl rfl rfl⟩)
      ⟨1, Step.release rfl rfl⟩, rfl⟩

/-- Claim C10, amended: what the per-item lock actually guarantees.
In every reachable state: (1) at most one request per item is inside
its lock-protected body at a time, so train invocations for one item
serialize (mutual exclusion); (2) train invocations for an item
exceed one only by its failed trains and evictions - in particular,
when no train fails and no eviction removes the item's record, at
most one train() invocation runs; (3) every record observed by any
request equals the item's unique trained record, so all requests
that receive an answer observe the same ModelRecord; (4) any state
with an unfinished request has an enabled step (deadlock-freedom -
the eventual-observation liveness of the claim then holds under any
fair scheduler, which is not formalized here); and (5) a step by a
request for a different item never touches this item's lock, train
count or failure count (its cached record may however be evicted by
cache pressure, which the counterexample scenario of the source's
LRU cache at capacity permits). -/
theorem predict_lock_serialization :
    (∀ (tr : ℕ → ℕ) (fit : ℕ → Bool) (item_of : ℕ → ℕ) (s : Sys),
      sys_reach tr fit item_of s →
      (∀ t1 t2, tpc_active ((s.thr t1).pc) → tpc_active ((s.thr t2).pc) →
        (s.thr t1).item = (s.thr t2).item → t1 = t2) ∧
      (∀ i, s.trains i ≤ s.fails i + s.evicts i + 1) ∧
      (∀ i, s.fails i = 0 → s.evicts i = 0 → s.trains i ≤ 1) ∧
      (∀ t r, (s.thr t).obs = some r → r = tr ((s.thr t).item)) ∧
      ((∃ t, ¬ (s.thr t).pc = TPC.done) → ∃ t2 s2, Step tr fit s s2 t2)) ∧
    (∀ (tr : ℕ → ℕ) (fit : ℕ → Bool) (s s2 : Sys) (t j : ℕ),
      Step tr fit s s2 t → ¬ (s.thr t).item = j →
      s2.locks j = s.locks j ∧ s2.trains j = s.trains j ∧ s2.fails j = s.fails j) := by
  constructor
  · intro tr fit item_of s hreach
    obtain ⟨hA, hB, hC, hD, hE, hF⟩ := sys_inv_reach tr fit item_of hreach
    have hstep_active : ∀ t2, tpc_active ((s.thr t2).pc) → ∃ s2, Step tr fit s s2 t2 := by
      intro t2 hact
      have hl := hA t2 hact
      rcases hact with hpc | hpc | hpc
      · cases hc : s.cache ((s.thr t2).item) with
        | some r => exact ⟨_, Step.check_hit hpc hl hc⟩
        | none => exact ⟨_, Step.check_miss hpc hl hc⟩
      · cases hf : fit t2 with
        | false => exact ⟨_, Step.train_fail hpc hl hf⟩
        | true => exact ⟨_, Step.train_ok hpc hl hf⟩
      · exact ⟨_, Step.release hpc hl⟩
    refine ⟨?_, fun i => (hD i).2, ?_, hE, ?_⟩
    · intro t1 t2 hact1 hact2 hitem
      have h1 := hA t1 hact1
      have h2 := hA t2 hact2
      rw [hitem, h2] at h1
      simpa using h1.symm
    · intro i hf0 he0
      have := (hD i).2
      omega
    · rintro ⟨t, ht⟩
      cases hpc : (s.thr t).pc with
      | start =>
        cases hlk : s.locks ((s.thr t).item) with
        | none => exact ⟨t, _, Step.acquire hpc hlk⟩
        | some t2 =>
          obtain ⟨hi2, hact2⟩ := hF _ t2 hlk
          obtain ⟨s2, hs2⟩ := hstep_active t2 hact2
          exact ⟨t2, s2, hs2⟩
      | check =>
        obtain ⟨s2, hs2⟩ := hstep_active t (Or.inl hpc)
        exact ⟨t, s2, hs2⟩
      | doTrain =>
        obtain ⟨s2, hs2⟩ := hstep_active t (Or.inr (Or.inl hpc))
        exact ⟨t, s2, hs2⟩
      | unlock =>
        obtain ⟨s2, hs2⟩ := hstep_active t (Or.inr (Or.inr hpc))
        exact ⟨t, s2, hs2⟩
      | done => exact absurd hpc ht
  · intro tr fit s s2 t j hstep hij
    have hj : ¬ j = (s.thr t).item := fun hh => hij hh.symm
    cases hstep with
    | acquire h1 h2 => exact ⟨upd_other _ _ hj, rfl, rfl⟩
    | check_hit h1 h2 h3 => exact ⟨rfl, rfl, rfl⟩
    | check_miss h1 h2 h3 => exact ⟨rfl, rfl, rfl⟩
    | train_ok h1 h2 h3 => exact ⟨rfl, upd_other _ _ hj, rfl⟩
    | train_fail h1 h2 h3 => exact ⟨rfl, upd_other _ _ hj, upd_other _ _ hj⟩
    | evict h1 h2 => exact ⟨rfl, rfl, rfl⟩
    | release h1 h2 => exact ⟨upd_other _ _ hj, rfl, rfl⟩

/-- Witness for predict_lock_serialization: the train-count bound at
the initial state, the deadlock-freedom clause at the initial state
with an unfinished thread, and the frame clause across a concrete
acquire step. -/
theorem predict_lock_serialization_witness :
    ((init_sys (fun _ => 0)).trains 0 ≤ (init_sys (fun _ => 0)).fails 0 +
      (init_sys (fun _ => 0)).evicts 0 + 1) ∧
    (∃ t2 s2, Step (fun _ => 42) (fun _ => true) (init_sys (fun _ => 0)) s2 t2) ∧
    (∃ s2, Step (fun _ => 42) (fun _ => true) (init_sys (fun _ => 0)) s2 0 ∧
      s2.locks 1 = (init_sys (fun _ => 0)).locks 1) := by
  refine ⟨?_, ?_, ?_⟩
  · exact (predict_lock_serialization.1 (fun _ => 42) (fun _ => true) (fun _ => 0) _
      Relation.ReflTransGen.refl).2.1 0
  · exact (predict_lock_serialization.1 (fun _ => 42) (fun _ => true) (fun _ => 0) _
      Relation.ReflTransGen.refl).2.2.2.2 ⟨0, by simp [init_sys]⟩
  · have hstep : Step (fun _ => 42) (fun _ => true) (init_sys (fun _ => 0))
        { init_sys (fun _ => 0) with
          locks := upd (init_sys (fun _ => 0)).locks
            (((init_sys (fun _ => 0)).thr 0).item) (some 0)
          thr := upd (init_sys (fun _ => 0)).thr 0
            { (init_sys (fun _ => 0)).thr 0 with pc := TPC.check } } 0 :=
      Step.acquire rfl rfl
    exact ⟨_, hstep,
      (predict_lock_serialization.2 (fun _ => 42) (fun _ => true) _ _ 0 1 hstep
        (by simp [init_sys])).1⟩
